import Mathlib

/-!
Shallow embedding of the granular caching layer of the tripnotes-cc-app
repository, covering:

  - src/lib/cache/redisBridge.ts            (KV transport)
  - src/lib/cache/granular-cache-service.ts (GranularCacheService)
  - src/lib/cache/granular-trip-loader.ts   (loadTripGranular and friends)
  - src/app/editor/[id]/actions-granular.ts (saveGranularChanges and friends)

Modelling conventions:

  - The remote TTL key-value store is a function from keys to optional
    entries carrying the stored value and an absolute expiry instant.
    Time is a natural number of seconds held in the state; a stored entry
    is readable while now is strictly below its expiry (set with
    ttl_seconds = n at instant t expires at t + n).
  - The transport (getKV / setKV in redisBridge.ts) can throw on non-200
    responses.  This is modelled by two fixed failure predicates on keys;
    a failing call is an error that the service methods catch.
  - Values stored by this layer are always JSON encodings of one of a
    fixed family of shapes: trip metadata, a day, an activity, a trip
    structure, a full trip, the literal strings true / false used by the
    stale marker, and the invalidation sentinel object.  Since JSON
    round-trip is lossless for these record types, the store holds the
    decoded value directly (inductive KVValue) instead of the string.
  - Cache keys are generated by the CacheKeys functions, which produce
    strings with pairwise distinct literal text per kind followed by the
    id, hence are injective per kind and disjoint across kinds; keys are
    therefore modelled as an inductive type with one constructor per
    generator.
  - Dates are opaque to this layer (serialized and compared only for
    equality), modelled as natural-number timestamps.
  - The TypeScript readback casts (JSON.parse(x) as T) are unchecked, so
    the get methods of the service return the decoded stored value
    (Option KVValue), exactly what the cast returns at runtime; callers
    that project fields of the result go through the explicit projections
    asMeta / asDay / asAct / asStruct below.
  - The module-level hit and miss counters of the service are metrics
    only, observed by no claim, and are omitted.
-/

/-- A gem (annotation) as declared in app/editor/[id]/lib/types.ts.
The gemType union of string literals is modelled as a string. -/
structure Gem where
  id : String
  title : String
  description : String
  gemType : String
  insiderInfo : Option String
deriving DecidableEq, Repr

/-- An activity (item) as declared in app/editor/[id]/lib/types.ts. -/
structure Activity where
  id : String
  dayId : String
  timeBlock : String
  description : String
  orderIndex : Nat
  locationName : Option String
  locationLat : Option String
  locationLng : Option String
  gems : List Gem
deriving DecidableEq, Repr

/-- A trip day (section) as declared in app/editor/[id]/lib/types.ts. -/
structure TripDay where
  id : String
  tripId : String
  dayNumber : Nat
  title : String
  subtitle : Option String
  summary : Option String
  activities : List Activity
deriving DecidableEq, Repr

/-- Trip scalar metadata, the TripMetadata shape of
granular-cache-service.ts (also the Trip shape of the editor types and
the shape of a row of the trips table). -/
structure TripMetadata where
  id : String
  creatorId : String
  title : String
  subtitle : String
  description : Option String
  destination : String
  durationDays : Nat
  priceCents : Nat
  currency : String
  status : String
  season : Option String
  budgetRange : Option String
  tripStyle : Option String
  coverImageUrl : Option String
  publishedAt : Option Nat
  createdAt : Nat
  updatedAt : Nat
deriving DecidableEq, Repr

/-- A full trip: TripData extends Trip with the ordered list of days. -/
structure TripData where
  id : String
  creatorId : String
  title : String
  subtitle : String
  description : Option String
  destination : String
  durationDays : Nat
  priceCents : Nat
  currency : String
  status : String
  season : Option String
  budgetRange : Option String
  tripStyle : Option String
  coverImageUrl : Option String
  publishedAt : Option Nat
  createdAt : Nat
  updatedAt : Nat
  days : List TripDay
deriving DecidableEq, Repr

/-- The scalar part of a TripData, as cached under the metadata key by
populateGranularCache. -/
def TripData.metaOf (t : TripData) : TripMetadata :=
  { id := t.id, creatorId := t.creatorId, title := t.title,
    subtitle := t.subtitle, description := t.description,
    destination := t.destination, durationDays := t.durationDays,
    priceCents := t.priceCents, currency := t.currency, status := t.status,
    season := t.season, budgetRange := t.budgetRange,
    tripStyle := t.tripStyle, coverImageUrl := t.coverImageUrl,
    publishedAt := t.publishedAt, createdAt := t.createdAt,
    updatedAt := t.updatedAt }

/-- Rebuild a TripData from scalar metadata and a list of days; this is
the object spread that combines metadata with days in
assembleFromCache. -/
def TripMetadata.withDays (m : TripMetadata) (days : List TripDay) : TripData :=
  { id := m.id, creatorId := m.creatorId, title := m.title,
    subtitle := m.subtitle, description := m.description,
    destination := m.destination, durationDays := m.durationDays,
    priceCents := m.priceCents, currency := m.currency, status := m.status,
    season := m.season, budgetRange := m.budgetRange,
    tripStyle := m.tripStyle, coverImageUrl := m.coverImageUrl,
    publishedAt := m.publishedAt, createdAt := m.createdAt,
    updatedAt := m.updatedAt, days := days }

/-- The object spread that replaces the activities of a cached day with
the activities assembled from the component cache. -/
def TripDay.withActivities (d : TripDay) (acts : List Activity) : TripDay :=
  { d with activities := acts }

/-- The TripStructure shape of granular-cache-service.ts.  The two
Record fields are association lists (JS object literals built by the
code always have distinct keys). -/
structure TripStructure where
  tripId : String
  dayIds : List String
  dayMap : List (String × List String)
  activityMap : List (String × List String)
  version : Nat
  lastModified : Nat
deriving DecidableEq, Repr

/-- JS object property access m[k], returning the value bound to k. -/
def jsGet {β : Type} (m : List (String × β)) (k : String) : Option β :=
  (m.find? (fun p => p.1 == k)).map (fun p => p.2)

/-- The decoded form of every string this layer ever stores in the KV
store.  vBool b stands for the raw strings true / false written for the
stale marker; vInvalid stands for the JSON of the invalidation sentinel
object with the single field invalidated = true; vDefaulted v stands
for a non-TripData object to which getFullTrip has assigned an empty
days array (data.days = data.days or []). -/
inductive KVValue where
  | vMeta (m : TripMetadata)
  | vDay (d : TripDay)
  | vAct (a : Activity)
  | vStruct (s : TripStructure)
  | vFull (t : TripData)
  | vBool (b : Bool)
  | vInvalid
  | vDefaulted (v : KVValue)
deriving DecidableEq, Repr

/-- JS truthiness of a decoded stored value: every object and array is
truthy; the boolean false (raw string false of the stale marker) is the
only falsy value this layer can store. -/
def KVValue.truthy : KVValue → Bool
  | .vBool b => b
  | _ => true

/-- Projection corresponding to using a decoded value at type
TripMetadata (the unchecked cast in getMetadata). -/
def KVValue.asMeta : KVValue → Option TripMetadata
  | .vMeta m => some m
  | _ => none

/-- Projection corresponding to using a decoded value at type TripDay. -/
def KVValue.asDay : KVValue → Option TripDay
  | .vDay d => some d
  | _ => none

/-- Projection corresponding to using a decoded value at type Activity. -/
def KVValue.asAct : KVValue → Option Activity
  | .vAct a => some a
  | _ => none

/-- Projection corresponding to using a decoded value at type
TripStructure (field access structure.dayIds and friends throws on any
other shape, which the callers catch). -/
def KVValue.asStruct : KVValue → Option TripStructure
  | .vStruct s => some s
  | _ => none

/-- Cache keys, one constructor per CacheKeys generator.  The string
generators all have pairwise distinct literal text before the id, so the
generated strings are injective per kind and disjoint across kinds; the
two batch-operation generators are never used by the code and are
omitted. -/
inductive CacheKey where
  | metaK (tripId : String)
  | dayK (dayId : String)
  | activityK (activityId : String)
  | gemK (gemId : String)
  | fullK (tripId : String)
  | previewK (tripId : String)
  | structureK (tripId : String)
  | staleK (tripId : String)
deriving DecidableEq, Repr

/-- One stored KV entry: the value and the absolute instant at which it
expires. -/
structure KVEntry where
  value : KVValue
  expiresAt : Nat
deriving DecidableEq, Repr

/-- The state of the remote KV store together with the clock and the
transport-failure oracles (keys on which getKV, resp. setKV, throws). -/
structure KVState where
  now : Nat
  entries : CacheKey → Option KVEntry
  failGets : CacheKey → Bool
  failSets : CacheKey → Bool

/-- Transport read (getKV of redisBridge.ts): an error models a thrown
exception; an expired or missing entry reads as a null value. -/
def getKV (st : KVState) (key : CacheKey) : Except Unit (Option KVValue) :=
  if st.failGets key then .error () else
    match st.entries key with
    | some e => if st.now < e.expiresAt then .ok (some e.value) else .ok none
    | none => .ok none

/-- Transport write (setKV of redisBridge.ts) with ttl in seconds: an
error models a thrown exception and leaves the state unchanged. -/
def setKV (st : KVState) (key : CacheKey) (v : KVValue) (ttl : Nat) :
    Except Unit KVState :=
  if st.failSets key then .error () else
    .ok { st with entries := fun k =>
            if k = key then some ⟨v, st.now + ttl⟩ else st.entries k }

/-- Advance the clock by d seconds (no code runs in between). -/
def KVState.advance (st : KVState) (d : Nat) : KVState :=
  { st with now := st.now + d }

/-- Shared shape of every component read of the service: getKV inside
the catch that turns a transport error into null, returning the decoded
stored value otherwise. -/
def tryRead (st : KVState) (k : CacheKey) : Option KVValue :=
  match getKV st k with
  | .error _ => none
  | .ok none => none
  | .ok (some v) => some v

/-- Shared shape of every best-effort cache write of the service: setKV
inside the catch that swallows a transport error. -/
def tryWrite (st : KVState) (k : CacheKey) (v : KVValue) (ttl : Nat) : KVState :=
  match setKV st k v ttl with
  | .error _ => st
  | .ok st1 => st1

/-- The TTL constants of granular-cache-service.ts, in seconds. -/
def TTL_METADATA : Nat := 3600
def TTL_DAY : Nat := 1800
def TTL_ACTIVITY : Nat := 1800
def TTL_FULL_TRIP : Nat := 900
def TTL_STRUCTURE : Nat := 3600
def TTL_ACTIVE_EDIT : Nat := 300

/-- GranularCacheService.getMetadata: transport errors are caught and
read as null; otherwise the decoded stored value is returned (the cast
to TripMetadata is unchecked). -/
def getMetadata (st : KVState) (tripId : String) : Option KVValue :=
  tryRead st (.metaK tripId)

/-- GranularCacheService.setMetadata: best effort, a transport error is
swallowed. -/
def setMetadata (st : KVState) (tripId : String) (m : TripMetadata) : KVState :=
  tryWrite st (.metaK tripId) (.vMeta m) TTL_METADATA

/-- GranularCacheService.getDay. -/
def getDay (st : KVState) (dayId : String) : Option KVValue :=
  tryRead st (.dayK dayId)

/-- GranularCacheService.setDay; the isActiveEdit flag selects the short
TTL class. -/
def setDay (st : KVState) (dayId : String) (d : TripDay)
    (isActiveEdit : Bool) : KVState :=
  tryWrite st (.dayK dayId) (.vDay d)
    (if isActiveEdit then TTL_ACTIVE_EDIT else TTL_DAY)

/-- GranularCacheService.getActivity. -/
def getActivity (st : KVState) (activityId : String) : Option KVValue :=
  tryRead st (.activityK activityId)

/-- GranularCacheService.setActivity. -/
def setActivity (st : KVState) (activityId : String) (a : Activity)
    (isActiveEdit : Bool) : KVState :=
  tryWrite st (.activityK activityId) (.vAct a)
    (if isActiveEdit then TTL_ACTIVE_EDIT else TTL_ACTIVITY)

/-- GranularCacheService.getStructure. -/
def getStructure (st : KVState) (tripId : String) : Option KVValue :=
  tryRead st (.structureK tripId)

/-- GranularCacheService.setStructure. -/
def setStructure (st : KVState) (tripId : String) (s : TripStructure) : KVState :=
  tryWrite st (.structureK tripId) (.vStruct s) TTL_STRUCTURE

/-- GranularCacheService.getFullTrip: first reads the stale marker and
short-circuits to null when its raw value is the string true; then reads
the assembled payload, defaulting a missing days field to the empty
array.  A transport error on either read is caught and read as null. -/
def getFullTrip (st : KVState) (tripId : String) : Option KVValue :=
  match getKV st (.staleK tripId) with
  | .error _ => none
  | .ok staleVal =>
    if staleVal = some (.vBool true) then none
    else
      match getKV st (.fullK tripId) with
      | .error _ => none
      | .ok none => none
      | .ok (some (.vFull t)) => some (.vFull t)
      | .ok (some v) => some (.vDefaulted v)

/-- GranularCacheService.setFullTrip: writes the assembled payload and
then clears the stale marker (raw string false), both with the full-trip
TTL; a transport error on the first write skips the second. -/
def setFullTrip (st : KVState) (tripId : String) (t : TripData) : KVState :=
  match setKV st (.fullK tripId) (.vFull t) TTL_FULL_TRIP with
  | .error _ => st
  | .ok st1 => tryWrite st1 (.staleK tripId) (.vBool false) TTL_FULL_TRIP

/-- GranularCacheService.markStale: writes the raw string true under the
stale key with the full-trip TTL; a transport error is swallowed. -/
def markStale (st : KVState) (tripId : String) : KVState :=
  tryWrite st (.staleK tripId) (.vBool true) TTL_FULL_TRIP

/-- Lookup in the JS Map built by GranularCacheService.getDays: the id
is bound exactly when it occurs in the requested list and its getDay
result is truthy. -/
def getDaysAt (st : KVState) (dayIds : List String) (id : String) :
    Option KVValue :=
  if id ∈ dayIds then
    match getDay st id with
    | some v => if v.truthy then some v else none
    | none => none
  else none

/-- Size of the JS Map built by GranularCacheService.getDays: the number
of distinct requested ids whose getDay result is truthy. -/
def getDaysSize (st : KVState) (dayIds : List String) : Nat :=
  (dayIds.dedup.filter (fun id =>
    match getDay st id with
    | some v => v.truthy
    | none => false)).length

/-- Lookup in the JS Map built by GranularCacheService.getActivities. -/
def getActivitiesAt (st : KVState) (activityIds : List String) (id : String) :
    Option KVValue :=
  if id ∈ activityIds then
    match getActivity st id with
    | some v => if v.truthy then some v else none
    | none => none
  else none

/-- The component kinds accepted by invalidateComponent. -/
inductive ComponentType where
  | day
  | activity
  | gem
deriving DecidableEq, Repr

/-- The cache key of a component, as selected by the switch in
invalidateComponent. -/
def componentKey : ComponentType → String → CacheKey
  | .day, id => .dayK id
  | .activity, id => .activityK id
  | .gem, id => .gemK id

/-- GranularCacheService.invalidateComponent: overwrites the component
entry with the invalidation sentinel under a one-second TTL, then marks
the trip stale.  A transport error on the sentinel write is caught,
skipping the markStale call. -/
def invalidateComponent (st : KVState) (tripId : String)
    (cty : ComponentType) (componentId : String) : KVState :=
  match setKV st (componentKey cty componentId) .vInvalid 1 with
  | .error _ => st
  | .ok st1 => markStale st1 tripId

/-- One best-effort sentinel write of clearTripCache: the key is
overwritten with the invalidation sentinel under a one-second TTL, and a
transport error on this key is swallowed by Promise.allSettled. -/
def setSentinel (st : KVState) (k : CacheKey) : KVState :=
  tryWrite st k .vInvalid 1

/-- The key list assembled by clearTripCache from a cached structure:
the metadata, full-trip, preview, structure and stale keys of the trip,
the day key of every day id of the structure, and the activity key of
every key of the activity map. -/
def clearKeys (tripId : String) (s : TripStructure) : List CacheKey :=
  [.metaK tripId, .fullK tripId, .previewK tripId, .structureK tripId,
   .staleK tripId]
  ++ s.dayIds.map CacheKey.dayK
  ++ (s.activityMap.map Prod.fst).map CacheKey.activityK

/-- GranularCacheService.clearTripCache: reads the cached structure, and
when it is present (truthy) overwrites every key it lists with the
invalidation sentinel.  The function has no try block of its own, so a
truthy cached value that is not a structure makes the field access
structure.dayIds throw: that is the none result. -/
def clearTripCache (st : KVState) (tripId : String) : Option KVState :=
  match getStructure st tripId with
  | none => some st
  | some v =>
    if v.truthy then
      match v.asStruct with
      | none => none
      | some s => some ((clearKeys tripId s).foldl setSentinel st)
    else some st

/-- The changes argument of GranularCacheService.smartSave.  The days
and activities Maps are association lists in insertion order with
distinct keys; the gems field of the TypeScript signature is ignored by
the body and omitted here; the metadata field is declared
Partial of TripMetadata but its only caller passes a full row, so it is
modelled as a full TripMetadata. -/
structure SmartChanges where
  metadata : Option TripMetadata
  days : List (String × TripDay)
  activities : List (String × Activity)
  structureIdx : Option TripStructure

/-- GranularCacheService.smartSave: refreshes the metadata entry only
when a truthy entry is already cached (the merge of the existing entry
with a full replacement row equals the row; an ill-typed existing entry
would contribute only extra fields invisible at the declared type),
writes every day and activity of the change set with the active-edit
TTL, and writes the structure when given one.  The writes are issued as
a concurrent fan-out over pairwise distinct keys, so the sequential
order below is equivalent.  The unconditional markStale that completes
GranularCacheService.smartSave is applied on top by smartSave. -/
def smartSavePre (st : KVState) (tripId : String) (c : SmartChanges) :
    KVState :=
  let st1 := match c.metadata with
    | some m =>
      match getMetadata st tripId with
      | some v => if v.truthy then setMetadata st tripId m else st
      | none => st
    | none => st
  let st2 := c.days.foldl (fun acc p => setDay acc p.1 p.2 true) st1
  let st3 := c.activities.foldl (fun acc p => setActivity acc p.1 p.2 true) st2
  match c.structureIdx with
  | some s => setStructure st3 tripId s
  | none => st3

/-- GranularCacheService.smartSave: the component refreshes of
smartSavePre followed by the unconditional markStale of the trip. -/
def smartSave (st : KVState) (tripId : String) (c : SmartChanges) : KVState :=
  markStale (smartSavePre st tripId c) tripId

/-- Assembler (assembleFromCache of granular-trip-loader.ts).  Structure
and metadata are fetched concurrently; a missing or falsy value of
either fails the assembly.  A truthy structure value that is not a
TripStructure makes the field access structure.dayIds throw inside the
try block, so the assembly also returns none there.  All days are then
fetched; if the day Map does not cover every listed day id the assembly
fails rather than returning a truncated document.  All activities of the
activity map are fetched; each day attaches, in the order listed by the
structure for that day, those of its activity ids that resolved, missing
leaf activities being silently dropped.  A resolved day or metadata
entry that is not of its declared shape would flow through the object
spreads as an ill-typed object; the typed model returns none there, a
case no examined behavior reaches (it requires a sentinel written less
than a second earlier). -/
def assembleFromCache (st : KVState) (tripId : String) : Option TripData :=
  match getStructure st tripId, getMetadata st tripId with
  | some sv, some mv =>
    if sv.truthy && mv.truthy then
      match sv.asStruct with
      | none => none
      | some s =>
        if getDaysSize st s.dayIds = s.dayIds.length then
          let allActivityIds := s.activityMap.map Prod.fst
          let days : List TripDay := s.dayIds.filterMap (fun dayId =>
            match getDaysAt st s.dayIds dayId with
            | none => none
            | some dv =>
              match dv.asDay with
              | none => none
              | some d =>
                let dayActivityIds := (jsGet s.dayMap dayId).getD []
                let acts : List Activity := dayActivityIds.filterMap (fun actId =>
                  match getActivitiesAt st allActivityIds actId with
                  | none => none
                  | some av => av.asAct)
                some (d.withActivities acts))
          match mv.asMeta with
          | none => none
          | some m => some (m.withDays days)
        else none
    else none
  | _, _ => none

/-- A row of the trip_days table.  Timestamps come from database
defaults on insert. -/
structure DayRow where
  id : String
  tripId : String
  dayNumber : Nat
  title : String
  subtitle : Option String
  summary : Option String
  createdAt : Nat
  updatedAt : Nat
deriving DecidableEq, Repr

/-- A row of the activities table (the columns the granular layer reads
or writes). -/
structure ActivityRow where
  id : String
  dayId : String
  timeBlock : String
  description : String
  orderIndex : Nat
  locationName : Option String
  locationLat : Option String
  locationLng : Option String
  createdAt : Nat
  updatedAt : Nat
deriving DecidableEq, Repr

/-- A row of the gems table (the columns the granular layer reads); the
created_at column orders the gems of an activity. -/
structure GemRow where
  id : String
  activityId : String
  title : String
  description : String
  gemType : String
  insiderInfo : Option String
  createdAt : Nat
deriving DecidableEq, Repr

/-- The authoritative relational store: a trips row carries exactly the
metadata scalars.  nextId feeds durable id generation on insert. -/
structure Database where
  trips : List TripMetadata
  tripDays : List DayRow
  activities : List ActivityRow
  gems : List GemRow
  nextId : Nat

/-- Stable insertion of one element into a sorted list, the kernel of
the sort used to model SQL ORDER BY. -/
def insertSorted {α : Type} (le : α → α → Bool) (a : α) : List α → List α
  | [] => [a]
  | b :: l => if le a b then a :: b :: l else b :: insertSorted le a l

/-- Stable insertion sort, the model of SQL ORDER BY (structural, so
concrete instances evaluate). -/
def sortBy {α : Type} (le : α → α → Bool) (l : List α) : List α :=
  l.foldr (insertSorted le) []

/-- The Gem shape built by the json_build_object of the bulk query. -/
def gemOfRow (g : GemRow) : Gem :=
  { id := g.id, title := g.title, description := g.description,
    gemType := g.gemType, insiderInfo := g.insiderInfo }

/-- The Activity shape built by the bulk query for one activity row:
its gems filtered by activity id and ordered by created_at. -/
def activityFromDb (db : Database) (a : ActivityRow) : Activity :=
  { id := a.id, dayId := a.dayId, timeBlock := a.timeBlock,
    description := a.description, orderIndex := a.orderIndex,
    locationName := a.locationName, locationLat := a.locationLat,
    locationLng := a.locationLng,
    gems := (sortBy (fun g1 g2 => decide (g1.createdAt ≤ g2.createdAt))
        (db.gems.filter (fun g => g.activityId == a.id))).map gemOfRow }

/-- The TripDay shape built by the bulk query for one day row: its
activities filtered by day id and ordered by order_index. -/
def dayFromDb (db : Database) (d : DayRow) : TripDay :=
  { id := d.id, tripId := d.tripId, dayNumber := d.dayNumber,
    title := d.title, subtitle := d.subtitle, summary := d.summary,
    activities := (sortBy (fun a1 a2 => decide (a1.orderIndex ≤ a2.orderIndex))
        (db.activities.filter (fun a => a.dayId == d.id))).map
      (activityFromDb db) }

/-- loadFromDatabase of granular-trip-loader.ts: the single bulk query
returning the trip row with its nested days (ordered by day_number),
activities (ordered by order_index) and gems (ordered by created_at);
absent trip id gives null, a trip with no days gets an empty days array.
The creator_name and creator_email join columns are not part of the
TripData shape and are dropped by the row mapping. -/
def loadFromDatabase (db : Database) (tripId : String) : Option TripData :=
  match db.trips.find? (fun r => r.id == tripId) with
  | none => none
  | some r =>
    some (r.withDays
      ((sortBy (fun d1 d2 => decide (d1.dayNumber ≤ d2.dayNumber))
          (db.tripDays.filter (fun d => d.tripId == tripId))).map
        (dayFromDb db)))

/-- The structure object built by populateGranularCache from a loaded
trip: day ids in trip order, per day its activity ids in content order,
and the activity map over all activities of the trip in traversal
order. -/
def structureOfTrip (t : TripData) (now : Nat) : TripStructure :=
  { tripId := t.id,
    dayIds := t.days.map TripDay.id,
    dayMap := t.days.map (fun d => (d.id, d.activities.map Activity.id)),
    activityMap := t.days.flatMap (fun d =>
      d.activities.map (fun a => (a.id, a.gems.map Gem.id))),
    version := 1,
    lastModified := now }

/-- populateGranularCache of granular-trip-loader.ts: caches the
metadata, every day, every activity, the structure and the assembled
full trip.  The writes fan out concurrently over pairwise distinct keys
(trip ids and fragment ids are database primary keys), so the sequential
order below is equivalent. -/
def populateGranularCache (st : KVState) (t : TripData) : KVState :=
  let st1 := setMetadata st t.id t.metaOf
  let st2 := t.days.foldl (fun acc d =>
    let acc1 := setDay acc d.id d false
    d.activities.foldl (fun acc2 a => setActivity acc2 a.id a false) acc1) st1
  let st3 := setStructure st2 t.id (structureOfTrip t st2.now)
  setFullTrip st3 t.id t

/-- Which of the three tiers served a loadTripGranular request. -/
inductive LoadSource where
  | cacheFull (v : KVValue)
  | assembled (t : TripData)
  | database (t : TripData)
  | miss
deriving DecidableEq, Repr

/-- loadTripGranular of granular-trip-loader.ts: whole-trip fast path,
then granular assembly (whose success is re-cached as the full trip),
then fallback to the authoritative store (whose success repopulates the
granular cache in the background; the repopulated state is the returned
state). -/
def loadTripGranular (st : KVState) (db : Database) (tripId : String) :
    LoadSource × KVState :=
  match getFullTrip st tripId with
  | some v => (.cacheFull v, st)
  | none =>
    match assembleFromCache st tripId with
    | some t => (.assembled t, setFullTrip st tripId t)
    | none =>
      match loadFromDatabase db tripId with
      | some t => (.database t, populateGranularCache st t)
      | none => (.miss, st)

/-- The metadata group of a SaveChanges bundle (the seven optional
scalar fields the editor may send). -/
structure MetaChanges where
  title : Option String
  subtitle : Option String
  description : Option (Option String)
  destination : Option String
  durationDays : Option Nat
  priceCents : Option Nat
  status : Option String
deriving DecidableEq, Repr

/-- Whether Object.keys(changes.metadata) is nonempty, i.e. at least one
field of the group was sent. -/
def metaNonEmpty (mc : MetaChanges) : Bool :=
  mc.title.isSome || mc.subtitle.isSome || mc.description.isSome ||
  mc.destination.isSome || mc.durationDays.isSome || mc.priceCents.isSome ||
  mc.status.isSome

/-- The object spread of a metadata change group over an existing trips
row, as computed for cacheUpdates.metadata (it does not bump
updatedAt). -/
def applyMetaChanges (r : TripMetadata) (mc : MetaChanges) : TripMetadata :=
  { r with
    title := mc.title.getD r.title,
    subtitle := mc.subtitle.getD r.subtitle,
    description := mc.description.getD r.description,
    destination := mc.destination.getD r.destination,
    durationDays := mc.durationDays.getD r.durationDays,
    priceCents := mc.priceCents.getD r.priceCents,
    status := mc.status.getD r.status }

/-- The day group of a SaveChanges bundle. -/
structure DayGroup where
  added : Option (List TripDay)
  updated : Option (List TripDay)
  deleted : Option (List String)
deriving DecidableEq, Repr

/-- The activity group of a SaveChanges bundle. -/
structure ActivityGroup where
  added : Option (List Activity)
  updated : Option (List Activity)
  deleted : Option (List String)
deriving DecidableEq, Repr

/-- The SaveChanges bundle of actions-granular.ts. -/
structure SaveChanges where
  tripId : String
  metadata : Option MetaChanges
  days : Option DayGroup
  activities : Option ActivityGroup
deriving DecidableEq, Repr

/-- The world of the save actions: the relational store, the KV state,
the authenticated user, and an oracle listing which failable
authoritative-store statements (counted in execution order) fail.  Reads
used for authentication and structure rebuild are modelled as
infallible; the oracle covers the write statements, which are the
failures the examined claims are about. -/
structure World where
  db : Database
  kv : KVState
  currentUser : Option String
  failedDbCalls : List Nat
  dbCalls : Nat

/-- Consume one failable authoritative-store call: reports whether it
throws and advances the call counter. -/
def dbCallFails (w : World) : Bool × World :=
  (w.failedDbCalls.contains w.dbCalls, { w with dbCalls := w.dbCalls + 1 })

/-- Durable id generation on insert. -/
def freshId (db : Database) : String := "db-" ++ toString db.nextId

/-- UPDATE trips SET changed fields, updated_at = now() WHERE id. -/
def dbUpdateTripMeta (db : Database) (tripId : String) (mc : MetaChanges)
    (now : Nat) : Database :=
  { db with trips := db.trips.map (fun r =>
      if r.id == tripId then { applyMetaChanges r mc with updatedAt := now }
      else r) }

/-- INSERT INTO trip_days (trip_id, day_number, title, subtitle)
RETURNING the new durable id; timestamps come from column defaults. -/
def dbInsertDay (db : Database) (tripId : String) (d : TripDay) (now : Nat) :
    Database × String :=
  let nid := freshId db
  ({ db with
      tripDays := db.tripDays ++
        [{ id := nid, tripId := tripId, dayNumber := d.dayNumber,
           title := d.title, subtitle := d.subtitle, summary := none,
           createdAt := now, updatedAt := now }],
      nextId := db.nextId + 1 }, nid)

/-- UPDATE trip_days SET title, subtitle, day_number, updated_at WHERE id. -/
def dbUpdateDay (db : Database) (d : TripDay) (now : Nat) : Database :=
  { db with tripDays := db.tripDays.map (fun r =>
      if r.id == d.id then
        { r with title := d.title, subtitle := d.subtitle,
                 dayNumber := d.dayNumber, updatedAt := now }
      else r) }

/-- DELETE FROM trip_days WHERE id IN ids; the day_id foreign key of
activities and the activity_id foreign key of gems cascade (see
db/schema/trips.ts). -/
def dbDeleteDays (db : Database) (ids : List String) : Database :=
  let removedActs := (db.activities.filter (fun a => ids.contains a.dayId)).map
    ActivityRow.id
  { db with
      tripDays := db.tripDays.filter (fun r => !(ids.contains r.id)),
      activities := db.activities.filter (fun a => !(ids.contains a.dayId)),
      gems := db.gems.filter (fun g => !(removedActs.contains g.activityId)) }

/-- INSERT INTO activities (day_id, time_block, description, order_index)
RETURNING the new durable id; the location columns are not inserted. -/
def dbInsertActivity (db : Database) (a : Activity) (now : Nat) :
    Database × String :=
  let nid := freshId db
  ({ db with
      activities := db.activities ++
        [{ id := nid, dayId := a.dayId, timeBlock := a.timeBlock,
           description := a.description, orderIndex := a.orderIndex,
           locationName := none, locationLat := none, locationLng := none,
           createdAt := now, updatedAt := now }],
      nextId := db.nextId + 1 }, nid)

/-- UPDATE activities SET time_block, description, order_index,
updated_at WHERE id. -/
def dbUpdateActivity (db : Database) (a : Activity) (now : Nat) : Database :=
  { db with activities := db.activities.map (fun r =>
      if r.id == a.id then
        { r with timeBlock := a.timeBlock, description := a.description,
                 orderIndex := a.orderIndex, updatedAt := now }
      else r) }

/-- DELETE FROM activities WHERE id IN ids, cascading to gems. -/
def dbDeleteActivities (db : Database) (ids : List String) : Database :=
  { db with
      activities := db.activities.filter (fun r => !(ids.contains r.id)),
      gems := db.gems.filter (fun g => !(ids.contains g.activityId)) }

/-- JS Map.set semantics over an insertion-ordered association list:
replace in place when the key is bound, append otherwise. -/
def listSet {β : Type} (m : List (String × β)) (k : String) (v : β) :
    List (String × β) :=
  if (m.find? (fun p => p.1 == k)).isSome then
    m.map (fun p => if p.1 == k then (k, v) else p)
  else m ++ [(k, v)]

/-- The outcome of a save action: ok, or a thrown-and-propagated error;
both carry the world as left behind. -/
inductive SaveOutcome where
  | ok (w : World)
  | failed (w : World)

/-- The world carried by a SaveOutcome. -/
def SaveOutcome.world : SaveOutcome → World
  | .ok w => w
  | .failed w => w

/-- Whether a SaveOutcome is the error case. -/
def SaveOutcome.isFailed : SaveOutcome → Bool
  | .ok _ => false
  | .failed _ => true

/-- Step 1 of saveGranularChanges: the metadata update, one failable
statement when at least one metadata field was sent. -/
def metadataPhase (w : World) (c : SaveChanges) : Except World World :=
  match c.metadata with
  | some mc =>
    if metaNonEmpty mc then
      let p := dbCallFails w
      if p.1 then .error p.2
      else .ok { p.2 with db := dbUpdateTripMeta p.2.db c.tripId mc p.2.kv.now }
    else .ok w
  | none => .ok w

/-- The insert loop over changes.days.added: each insert is one failable
statement; on success the returned durable id replaces the client id in
the pending cache updates. -/
def insertDaysLoop (tripId : String) :
    World → List (String × TripDay) → List TripDay →
    Except World (World × List (String × TripDay))
  | w, pend, [] => .ok (w, pend)
  | w, pend, d :: rest =>
    let p := dbCallFails w
    if p.1 then .error p.2
    else
      let q := dbInsertDay p.2.db tripId d p.2.kv.now
      insertDaysLoop tripId { p.2 with db := q.1 }
        (listSet pend q.2 { d with id := q.2 }) rest

/-- The update loop over changes.days.updated. -/
def updateDaysLoop :
    World → List (String × TripDay) → List TripDay →
    Except World (World × List (String × TripDay))
  | w, pend, [] => .ok (w, pend)
  | w, pend, d :: rest =>
    let p := dbCallFails w
    if p.1 then .error p.2
    else
      updateDaysLoop { p.2 with db := dbUpdateDay p.2.db d p.2.kv.now }
        (listSet pend d.id d) rest

/-- The deletion step over changes.days.deleted: one failable DELETE
statement for the whole id list, then an eager cache invalidation (with
stale marking) per deleted id. -/
def deleteDaysPhase (w : World) (tripId : String) (ids : List String) :
    Except World World :=
  if ids.isEmpty then .ok w
  else
    let p := dbCallFails w
    if p.1 then .error p.2
    else
      let w2 := { p.2 with db := dbDeleteDays p.2.db ids }
      .ok (ids.foldl (fun acc id =>
        { acc with kv := invalidateComponent acc.kv tripId .day id }) w2)

/-- Step 2 of saveGranularChanges: the day group, additions then updates
then deletions. -/
def daysPhase (w : World) (c : SaveChanges) :
    Except World (World × List (String × TripDay)) :=
  match c.days with
  | none => .ok (w, [])
  | some dg =>
    match insertDaysLoop c.tripId w [] (dg.added.getD []) with
    | .error wf => .error wf
    | .ok (w1, pend1) =>
      match updateDaysLoop w1 pend1 (dg.updated.getD []) with
      | .error wf => .error wf
      | .ok (w2, pend2) =>
        match deleteDaysPhase w2 c.tripId (dg.deleted.getD []) with
        | .error wf => .error wf
        | .ok w3 => .ok (w3, pend2)

/-- The insert loop over changes.activities.added. -/
def insertActivitiesLoop :
    World → List (String × Activity) → List Activity →
    Except World (World × List (String × Activity))
  | w, pend, [] => .ok (w, pend)
  | w, pend, a :: rest =>
    let p := dbCallFails w
    if p.1 then .error p.2
    else
      let q := dbInsertActivity p.2.db a p.2.kv.now
      insertActivitiesLoop { p.2 with db := q.1 }
        (listSet pend q.2 { a with id := q.2 }) rest

/-- The update loop over changes.activities.updated. -/
def updateActivitiesLoop :
    World → List (String × Activity) → List Activity →
    Except World (World × List (String × Activity))
  | w, pend, [] => .ok (w, pend)
  | w, pend, a :: rest =>
    let p := dbCallFails w
    if p.1 then .error p.2
    else
      updateActivitiesLoop { p.2 with db := dbUpdateActivity p.2.db a p.2.kv.now }
        (listSet pend a.id a) rest

/-- The deletion step over changes.activities.deleted. -/
def deleteActivitiesPhase (w : World) (tripId : String) (ids : List String) :
    Except World World :=
  if ids.isEmpty then .ok w
  else
    let p := dbCallFails w
    if p.1 then .error p.2
    else
      let w2 := { p.2 with db := dbDeleteActivities p.2.db ids }
      .ok (ids.foldl (fun acc id =>
        { acc with kv := invalidateComponent acc.kv tripId .activity id }) w2)

/-- Step 3 of saveGranularChanges: the activity group. -/
def activitiesPhase (w : World) (c : SaveChanges) :
    Except World (World × List (String × Activity)) :=
  match c.activities with
  | none => .ok (w, [])
  | some ag =>
    match insertActivitiesLoop w [] (ag.added.getD []) with
    | .error wf => .error wf
    | .ok (w1, pend1) =>
      match updateActivitiesLoop w1 pend1 (ag.updated.getD []) with
      | .error wf => .error wf
      | .ok (w2, pend2) =>
        match deleteActivitiesPhase w2 c.tripId (ag.deleted.getD []) with
        | .error wf => .error wf
        | .ok w3 => .ok (w3, pend2)

/-- buildTripStructure of actions-granular.ts: reads the current day and
activity id graph of the trip from the authoritative store (days ordered
by day_number, activities ordered by order_index), returning null for a
trip with no days; gem ids are left empty by the code. -/
def buildTripStructure (db : Database) (tripId : String) (now : Nat) :
    Option TripStructure :=
  let days := sortBy (fun d1 d2 => decide (d1.dayNumber ≤ d2.dayNumber))
    (db.tripDays.filter (fun d => d.tripId == tripId))
  if days.isEmpty then none
  else
    let dayIds := days.map DayRow.id
    let allActs := sortBy (fun a1 a2 => decide (a1.orderIndex ≤ a2.orderIndex))
      (db.activities.filter (fun a => dayIds.contains a.dayId))
    some { tripId := tripId,
           dayIds := dayIds,
           dayMap := days.map (fun d =>
             (d.id, (allActs.filter (fun a => a.dayId == d.id)).map
               ActivityRow.id)),
           activityMap := allActs.map (fun a => (a.id, ([] : List String))),
           version := 1,
           lastModified := now }

/-- Whether saveGranularChanges rebuilds the structure: the condition
changes.days?.added or changes.days?.deleted is truthy exactly when the
day group is present and carries an added or deleted list (arrays are
truthy in JS even when empty); activity changes never trigger it. -/
def rebuildCond (c : SaveChanges) : Bool :=
  match c.days with
  | some dg => dg.added.isSome || dg.deleted.isSome
  | none => false

/-- saveGranularChanges of actions-granular.ts: authentication and
ownership checks, then the three persistence phases (a thrown store
error propagates, leaving any eager deletion invalidations already
applied), then the smartSave cache refresh (with the metadata merge
computed from the pre-update trips row and the pending day and activity
values keyed by durable id), then the structure rebuild when the day
group carried an added or deleted list. -/
def saveGranularChanges (w : World) (c : SaveChanges) : SaveOutcome :=
  match w.currentUser with
  | none => .failed w
  | some uid =>
    match w.db.trips.find? (fun r => r.id == c.tripId) with
    | none => .failed w
    | some existingTrip =>
      if existingTrip.creatorId ≠ uid then .failed w
      else
        let pendMeta := c.metadata.map (fun mc => applyMetaChanges existingTrip mc)
        match metadataPhase w c with
        | .error wf => .failed wf
        | .ok w1 =>
          match daysPhase w1 c with
          | .error wf => .failed wf
          | .ok (w2, pendDays) =>
            match activitiesPhase w2 c with
            | .error wf => .failed wf
            | .ok (w3, pendActs) =>
              let kv1 := smartSave w3.kv c.tripId
                { metadata := pendMeta, days := pendDays,
                  activities := pendActs, structureIdx := none }
              let w4 := { w3 with kv := kv1 }
              if rebuildCond c then
                match buildTripStructure w4.db c.tripId w4.kv.now with
                | some s => .ok { w4 with kv := setStructure w4.kv c.tripId s }
                | none => .ok w4
              else .ok w4

/-- The Partial of Activity sent by saveActivityOnly (the content
columns; the id, dayId and gems fields are never patched by the
editor). -/
structure ActivityPatch where
  timeBlock : Option String
  description : Option String
  orderIndex : Option Nat
  locationName : Option (Option String)
  locationLat : Option (Option String)
  locationLng : Option (Option String)
deriving DecidableEq, Repr

/-- The object spread of an activity patch over a cached Activity. -/
def applyActivityPatch (a : Activity) (p : ActivityPatch) : Activity :=
  { a with
    timeBlock := p.timeBlock.getD a.timeBlock,
    description := p.description.getD a.description,
    orderIndex := p.orderIndex.getD a.orderIndex,
    locationName := p.locationName.getD a.locationName,
    locationLat := p.locationLat.getD a.locationLat,
    locationLng := p.locationLng.getD a.locationLng }

/-- UPDATE activities SET sent fields, updated_at WHERE id. -/
def dbPatchActivity (db : Database) (activityId : String) (p : ActivityPatch)
    (now : Nat) : Database :=
  { db with activities := db.activities.map (fun r =>
      if r.id == activityId then
        { r with
          timeBlock := p.timeBlock.getD r.timeBlock,
          description := p.description.getD r.description,
          orderIndex := p.orderIndex.getD r.orderIndex,
          locationName := p.locationName.getD r.locationName,
          locationLat := p.locationLat.getD r.locationLat,
          locationLng := p.locationLng.getD r.locationLng,
          updatedAt := now }
      else r) }

/-- saveActivityOnly of actions-granular.ts: authentication, one
failable UPDATE, then a cache refresh only when a truthy entry is
already cached (merged with the patch; an entry of another shape would
merge as an ill-typed object, a case the typed model skips), then an
unconditional markStale. -/
def saveActivityOnly (w : World) (tripId activityId : String)
    (p : ActivityPatch) : SaveOutcome :=
  match w.currentUser with
  | none => .failed w
  | some _ =>
    let q := dbCallFails w
    if q.1 then .failed q.2
    else
      let w2 := { q.2 with db := dbPatchActivity q.2.db activityId p q.2.kv.now }
      let kv1 := match getActivity w2.kv activityId with
        | some v =>
          if v.truthy then
            match v.asAct with
            | some a => setActivity w2.kv activityId (applyActivityPatch a p) true
            | none => w2.kv
          else w2.kv
        | none => w2.kv
      .ok { w2 with kv := markStale kv1 tripId }

/-- The updates argument of saveDayMetadata. -/
structure DayPatch where
  title : Option String
  subtitle : Option (Option String)
deriving DecidableEq, Repr

/-- The object spread of a day patch over a cached TripDay. -/
def applyDayPatch (d : TripDay) (p : DayPatch) : TripDay :=
  { d with
    title := p.title.getD d.title,
    subtitle := p.subtitle.getD d.subtitle }

/-- UPDATE trip_days SET sent fields, updated_at WHERE id. -/
def dbPatchDay (db : Database) (dayId : String) (p : DayPatch) (now : Nat) :
    Database :=
  { db with tripDays := db.tripDays.map (fun r =>
      if r.id == dayId then
        { r with
          title := p.title.getD r.title,
          subtitle := p.subtitle.getD r.subtitle,
          updatedAt := now }
      else r) }

/-- saveDayMetadata of actions-granular.ts: authentication, one failable
UPDATE, a cache refresh only when a truthy entry is already cached, then
an unconditional markStale. -/
def saveDayMetadata (w : World) (tripId dayId : String) (p : DayPatch) :
    SaveOutcome :=
  match w.currentUser with
  | none => .failed w
  | some _ =>
    let q := dbCallFails w
    if q.1 then .failed q.2
    else
      let w2 := { q.2 with db := dbPatchDay q.2.db dayId p q.2.kv.now }
      let kv1 := match getDay w2.kv dayId with
        | some v =>
          if v.truthy then
            match v.asDay with
            | some d => setDay w2.kv dayId (applyDayPatch d p) true
            | none => w2.kv
          else w2.kv
        | none => w2.kv
      .ok { w2 with kv := markStale kv1 tripId }

/-- The cache-mutating operations of the service, for reasoning about
what can happen between a markStale and a later whole-trip read;
opAdvance lets the clock move between operations. -/
inductive Op where
  | opSetMetadata (tripId : String) (m : TripMetadata)
  | opSetDay (dayId : String) (d : TripDay) (isActiveEdit : Bool)
  | opSetActivity (activityId : String) (a : Activity) (isActiveEdit : Bool)
  | opSetStructure (tripId : String) (s : TripStructure)
  | opSetFullTrip (tripId : String) (t : TripData)
  | opMarkStale (tripId : String)
  | opInvalidate (tripId : String) (cty : ComponentType) (cid : String)
  | opSmartSave (tripId : String) (c : SmartChanges)
  | opClearTripCache (tripId : String)
  | opAdvance (d : Nat)

/-- Run one service operation. -/
def Op.run (st : KVState) : Op → KVState
  | .opSetMetadata t m => setMetadata st t m
  | .opSetDay i d e => setDay st i d e
  | .opSetActivity i a e => setActivity st i a e
  | .opSetStructure t s => setStructure st t s
  | .opSetFullTrip t tr => setFullTrip st t tr
  | .opMarkStale t => markStale st t
  | .opInvalidate t c i => invalidateComponent st t c i
  | .opSmartSave t c => smartSave st t c
  | .opClearTripCache t => (clearTripCache st t).getD st
  | .opAdvance d => st.advance d

/-- Run a sequence of service operations. -/
def runOps (st : KVState) (ops : List Op) : KVState := ops.foldl Op.run st

/-- Whether an operation can write the whole-trip payload key or replace
the stale marker of the given trip with something other than the raw
string true: exactly setFullTrip of the trip and clearTripCache of the
trip. -/
def Op.mayWriteFullPath (tripId : String) : Op → Bool
  | .opSetFullTrip t _ => t == tripId
  | .opClearTripCache t => t == tripId
  | _ => false

theorem tryRead_fail (st : KVState) (k : CacheKey)
    (h : st.failGets k = true) : tryRead st k = none := by
  unfold tryRead getKV
  simp [h]

theorem tryRead_absent (st : KVState) (k : CacheKey)
    (h : st.failGets k = false) (he : st.entries k = none) :
    tryRead st k = none := by
  unfold tryRead getKV
  simp [h, he]

theorem tryRead_entry (st : KVState) (k : CacheKey) (e : KVEntry)
    (h : st.failGets k = false) (he : st.entries k = some e)
    (hnow : st.now < e.expiresAt) : tryRead st k = some e.value := by
  unfold tryRead getKV
  simp [h, he, hnow]

theorem tryRead_expired (st : KVState) (k : CacheKey) (e : KVEntry)
    (h : st.failGets k = false) (he : st.entries k = some e)
    (hnow : ¬ st.now < e.expiresAt) : tryRead st k = none := by
  unfold tryRead getKV
  simp [h, he, hnow]

theorem tryWrite_fail (st : KVState) (k : CacheKey) (v : KVValue) (ttl : Nat)
    (h : st.failSets k = true) : tryWrite st k v ttl = st := by
  unfold tryWrite setKV
  simp [h]

theorem tryWrite_now (st : KVState) (k : CacheKey) (v : KVValue) (ttl : Nat) :
    (tryWrite st k v ttl).now = st.now := by
  by_cases h : st.failSets k = true
  · rw [tryWrite_fail st k v ttl h]
  · unfold tryWrite setKV
    simp [h]

theorem tryWrite_failGets (st : KVState) (k : CacheKey) (v : KVValue)
    (ttl : Nat) : (tryWrite st k v ttl).failGets = st.failGets := by
  by_cases h : st.failSets k = true
  · rw [tryWrite_fail st k v ttl h]
  · unfold tryWrite setKV
    simp [h]

theorem tryWrite_failSets (st : KVState) (k : CacheKey) (v : KVValue)
    (ttl : Nat) : (tryWrite st k v ttl).failSets = st.failSets := by
  by_cases h : st.failSets k = true
  · rw [tryWrite_fail st k v ttl h]
  · unfold tryWrite setKV
    simp [h]

theorem tryWrite_entries_other (st : KVState) (k : CacheKey) (v : KVValue)
    (ttl : Nat) (k2 : CacheKey) (h : k2 ≠ k) :
    (tryWrite st k v ttl).entries k2 = st.entries k2 := by
  by_cases hf : st.failSets k = true
  · rw [tryWrite_fail st k v ttl hf]
  · unfold tryWrite setKV
    simp [hf, h]

theorem tryWrite_entries_self (st : KVState) (k : CacheKey) (v : KVValue)
    (ttl : Nat) (h : st.failSets k = false) :
    (tryWrite st k v ttl).entries k = some ⟨v, st.now + ttl⟩ := by
  unfold tryWrite setKV
  simp [h]

/-- A sample gem. -/
def gemEx : Gem :=
  { id := "g1", title := "Fountain", description := "gd", gemType := "tip",
    insiderInfo := none }

/-- A sample activity with one gem. -/
def actEx : Activity :=
  { id := "a1", dayId := "d1", timeBlock := "morning",
    description := "see the park", orderIndex := 1, locationName := none,
    locationLat := none, locationLng := none, gems := [gemEx] }

/-- A second sample activity. -/
def actEx2 : Activity :=
  { id := "a2", dayId := "d1", timeBlock := "evening",
    description := "dinner", orderIndex := 2, locationName := none,
    locationLat := none, locationLng := none, gems := [] }

/-- A sample day holding the two sample activities. -/
def dayEx : TripDay :=
  { id := "d1", tripId := "t1", dayNumber := 1, title := "Day 1",
    subtitle := none, summary := none, activities := [actEx, actEx2] }

/-- Sample trip metadata. -/
def metaEx : TripMetadata :=
  { id := "t1", creatorId := "u1", title := "Tokyo", subtitle := "A week",
    description := none, destination := "Tokyo", durationDays := 1,
    priceCents := 1000, currency := "USD", status := "draft", season := none,
    budgetRange := none, tripStyle := none, coverImageUrl := none,
    publishedAt := none, createdAt := 5, updatedAt := 5 }

/-- A sample trip with one day and two activities. -/
def tripEx : TripData := metaEx.withDays [dayEx]

/-- The structure of the sample trip. -/
def structEx : TripStructure := structureOfTrip tripEx 0

/-- A state whose transport fails on every key, both directions. -/
def stAllFail : KVState :=
  { now := 0, entries := fun _ => none, failGets := fun _ => true,
    failSets := fun _ => true }

/-- C9 (transport fail-open): a throwing getKV never propagates out of a
component get: getMetadata, getDay, getActivity, getStructure and
getFullTrip all return null under a transport read failure (for
getFullTrip, a failure on either of its two reads); and a throwing setKV
is swallowed by every component set: setMetadata, setDay, setActivity,
setStructure, setFullTrip and markStale return with the state unchanged
instead of failing the caller. -/
theorem c9_transport_fail_open
    (st : KVState) (tid did aid : String)
    (m : TripMetadata) (d : TripDay) (a : Activity) (s : TripStructure)
    (t : TripData) (e1 e2 : Bool)
    (hgm : st.failGets (.metaK tid) = true)
    (hgd : st.failGets (.dayK did) = true)
    (hga : st.failGets (.activityK aid) = true)
    (hgs : st.failGets (.structureK tid) = true)
    (hgf : st.failGets (.staleK tid) = true)
    (hsm : st.failSets (.metaK tid) = true)
    (hsd : st.failSets (.dayK did) = true)
    (hsa : st.failSets (.activityK aid) = true)
    (hss : st.failSets (.structureK tid) = true)
    (hsf : st.failSets (.fullK tid) = true)
    (hst : st.failSets (.staleK tid) = true) :
    getMetadata st tid = none ∧ getDay st did = none ∧
    getActivity st aid = none ∧ getStructure st tid = none ∧
    getFullTrip st tid = none ∧
    (∀ st2 : KVState, st2.failGets (.fullK tid) = true →
      getFullTrip st2 tid = none) ∧
    setMetadata st tid m = st ∧ setDay st did d e1 = st ∧
    setActivity st aid a e2 = st ∧ setStructure st tid s = st ∧
    setFullTrip st tid t = st ∧ markStale st tid = st := by
  refine ⟨tryRead_fail st _ hgm, tryRead_fail st _ hgd, tryRead_fail st _ hga,
    tryRead_fail st _ hgs, ?_, ?_, tryWrite_fail st _ _ _ hsm,
    tryWrite_fail st _ _ _ hsd, tryWrite_fail st _ _ _ hsa,
    tryWrite_fail st _ _ _ hss, ?_, tryWrite_fail st _ _ _ hst⟩
  · unfold getFullTrip getKV
    simp [hgf]
  · intro st2 h2
    unfold getFullTrip getKV
    simp only [h2, if_true]
    split
    · rfl
    · split <;> rfl
  · unfold setFullTrip setKV
    simp [hsf]

/-- Witness for C9: a concrete state with failing transport on every
key behaves as fail-open on both a read and a write. -/
theorem c9_transport_fail_open_witness :
    getMetadata stAllFail "t1" = none ∧ markStale stAllFail "t1" = stAllFail := by
  have h := c9_transport_fail_open stAllFail "t1" "d1" "a1" metaEx dayEx actEx
    structEx tripEx false false rfl rfl rfl rfl rfl rfl rfl rfl rfl rfl rfl
  exact ⟨h.1, h.2.2.2.2.2.2.2.2.2.2.2⟩

theorem componentKey_ne_staleK (cty : ComponentType) (cid tid : String) :
    componentKey cty cid ≠ CacheKey.staleK tid := by
  cases cty <;> simp [componentKey]

theorem markStale_def (st : KVState) (tid : String) :
    markStale st tid = tryWrite st (.staleK tid) (.vBool true) TTL_FULL_TRIP :=
  rfl

theorem setSentinel_def (st : KVState) (k : CacheKey) :
    setSentinel st k = tryWrite st k .vInvalid 1 :=
  rfl

theorem setMetadata_def (st : KVState) (tid : String) (m : TripMetadata) :
    setMetadata st tid m = tryWrite st (.metaK tid) (.vMeta m) TTL_METADATA :=
  rfl

theorem setDay_def (st : KVState) (id : String) (d : TripDay) (e : Bool) :
    setDay st id d e = tryWrite st (.dayK id) (.vDay d)
      (if e then TTL_ACTIVE_EDIT else TTL_DAY) :=
  rfl

theorem setActivity_def (st : KVState) (id : String) (a : Activity)
    (e : Bool) :
    setActivity st id a e = tryWrite st (.activityK id) (.vAct a)
      (if e then TTL_ACTIVE_EDIT else TTL_ACTIVITY) :=
  rfl

theorem setStructure_def (st : KVState) (tid : String) (s : TripStructure) :
    setStructure st tid s
      = tryWrite st (.structureK tid) (.vStruct s) TTL_STRUCTURE :=
  rfl

theorem foldl_setSentinel_now (ks : List CacheKey) (st : KVState) :
    (ks.foldl setSentinel st).now = st.now := by
  induction ks generalizing st with
  | nil => rfl
  | cons k ks ih =>
    rw [List.foldl_cons, ih]
    exact tryWrite_now st k _ _

theorem foldl_setSentinel_failSets (ks : List CacheKey) (st : KVState) :
    (ks.foldl setSentinel st).failSets = st.failSets := by
  induction ks generalizing st with
  | nil => rfl
  | cons k ks ih =>
    rw [List.foldl_cons, ih]
    exact tryWrite_failSets st k _ _

theorem foldl_setSentinel_not_mem (ks : List CacheKey) (st : KVState)
    (k : CacheKey) (h : k ∉ ks) :
    (ks.foldl setSentinel st).entries k = st.entries k := by
  induction ks generalizing st with
  | nil => rfl
  | cons k0 ks ih =>
    rw [List.foldl_cons, ih _ (fun hm => h (List.mem_cons_of_mem k0 hm))]
    exact tryWrite_entries_other st k0 _ _ k
      (fun he => h (he ▸ List.mem_cons_self k0 ks))

theorem foldl_setSentinel_mem (ks : List CacheKey) (st : KVState)
    (k : CacheKey) (hmem : k ∈ ks) (hf : st.failSets k = false) :
    (ks.foldl setSentinel st).entries k = some ⟨.vInvalid, st.now + 1⟩ := by
  induction ks generalizing st with
  | nil => cases hmem
  | cons k0 ks ih =>
    rw [List.foldl_cons]
    by_cases hk : k ∈ ks
    · have hfs : (setSentinel st k0).failSets k = false := by
        rw [setSentinel_def, tryWrite_failSets]
        exact hf
      rw [ih (setSentinel st k0) hk hfs, setSentinel_def, tryWrite_now]
    · have hkk : k = k0 := by
        rcases List.mem_cons.mp hmem with h | h
        · exact h
        · exact absurd h hk
      subst hkk
      rw [foldl_setSentinel_not_mem ks _ k hk, setSentinel_def]
      exact tryWrite_entries_self st k _ _ hf

/-- C10 (implicit, sentinel invalidation): invalidateComponent does not
delete the component entry; it overwrites it with the invalidation
sentinel under a one-second TTL, so a component get issued before that
second elapses returns the parsed sentinel, a non-absent value that is
not a valid day or activity fragment, while a get issued one second
later finds the entry expired; and clearTripCache writes the same
sentinel, with the same TTL, under every key it derives from the cached
structure of the trip. -/
theorem c10_invalidation_sentinel
    (st : KVState) (tid cid : String) (cty : ComponentType)
    (hset : st.failSets (componentKey cty cid) = false)
    (hget : st.failGets (componentKey cty cid) = false) :
    ((invalidateComponent st tid cty cid).entries (componentKey cty cid)
      = some ⟨.vInvalid, st.now + 1⟩) ∧
    tryRead (invalidateComponent st tid cty cid) (componentKey cty cid)
      = some .vInvalid ∧
    tryRead ((invalidateComponent st tid cty cid).advance 1)
      (componentKey cty cid) = none ∧
    KVValue.asDay .vInvalid = none ∧ KVValue.asAct .vInvalid = none ∧
    (∀ s : TripStructure, getStructure st tid = some (.vStruct s) →
      ∀ k, k ∈ clearKeys tid s → st.failSets k = false →
        ∃ st2, clearTripCache st tid = some st2 ∧
          st2.entries k = some ⟨.vInvalid, st.now + 1⟩) := by
  have hsk : setKV st (componentKey cty cid) .vInvalid 1 = Except.ok
      (KVState.mk st.now
        (fun k => if k = componentKey cty cid
          then some (KVEntry.mk .vInvalid (st.now + 1))
          else st.entries k)
        st.failGets st.failSets) := by
    unfold setKV
    simp [hset]
  have hinv : invalidateComponent st tid cty cid
      = markStale (KVState.mk st.now
          (fun k => if k = componentKey cty cid
            then some (KVEntry.mk .vInvalid (st.now + 1))
            else st.entries k)
          st.failGets st.failSets) tid := by
    unfold invalidateComponent
    rw [hsk]
  have hentry : (invalidateComponent st tid cty cid).entries
      (componentKey cty cid) = some ⟨.vInvalid, st.now + 1⟩ := by
    rw [hinv, markStale_def,
      tryWrite_entries_other _ _ _ _ _ (componentKey_ne_staleK cty cid tid)]
    simp
  have hnow : (invalidateComponent st tid cty cid).now = st.now := by
    rw [hinv, markStale_def, tryWrite_now]
  have hfg : (invalidateComponent st tid cty cid).failGets
      (componentKey cty cid) = false := by
    rw [hinv, markStale_def, tryWrite_failGets]
    exact hget
  refine ⟨hentry, ?_, ?_, rfl, rfl, ?_⟩
  · rw [tryRead_entry _ _ ⟨.vInvalid, st.now + 1⟩ hfg hentry]
    rw [hnow]
    exact Nat.lt_succ_self st.now
  · refine tryRead_expired _ _ ⟨.vInvalid, st.now + 1⟩ hfg hentry ?_
    show ¬ (invalidateComponent st tid cty cid).now + 1 < st.now + 1
    rw [hnow]
    exact Nat.lt_irrefl (st.now + 1)
  · intro s hs k hk hkf
    refine ⟨(clearKeys tid s).foldl setSentinel st, ?_, ?_⟩
    · unfold clearTripCache
      rw [hs]
      rfl
    · rw [foldl_setSentinel_mem (clearKeys tid s) st k hk hkf]

/-- Witness for C10: invalidating activity a1 of trip t1 in a fresh
store leaves a readable sentinel under the activity key. -/
theorem c10_invalidation_sentinel_witness :
    tryRead (invalidateComponent
        { now := 0, entries := fun _ => none,
          failGets := fun _ => false, failSets := fun _ => false }
        "t1" .activity "a1") (.activityK "a1") = some .vInvalid := by
  exact (c10_invalidation_sentinel
    { now := 0, entries := fun _ => none,
      failGets := fun _ => false, failSets := fun _ => false }
    "t1" "a1" .activity rfl rfl).2.1

/-- The invariant behind staleness enforcement: the stale key of the
trip holds the raw string true, and any payload under the full-trip key
expires no later than the stale marker and no later than one full-trip
TTL from now. -/
def FullStaleInv (tripId : String) (st : KVState) : Prop :=
  ∃ E, st.entries (.staleK tripId) = some ⟨.vBool true, E⟩ ∧
    ∀ e, st.entries (.fullK tripId) = some e →
      e.expiresAt ≤ E ∧ e.expiresAt ≤ st.now + TTL_FULL_TRIP

theorem fullStaleInv_getFullTrip (tripId : String) (st : KVState)
    (hinv : FullStaleInv tripId st) : getFullTrip st tripId = none := by
  obtain ⟨E, hE, hP⟩ := hinv
  unfold getFullTrip getKV
  by_cases hg : st.failGets (.staleK tripId) = true
  · simp [hg]
  · simp only [hg, if_false, Bool.false_eq_true, hE]
    by_cases hlt : st.now < E
    · simp [hlt]
    · simp only [hlt, if_false]
      by_cases hgf : st.failGets (.fullK tripId) = true
      · simp [hgf]
      · simp only [hgf, if_false, Bool.false_eq_true]
        rcases hfe : st.entries (.fullK tripId) with _ | e
        · simp
        · have h1 := (hP e hfe).1
          have h2 : ¬ st.now < e.expiresAt :=
            fun hc => hlt (Nat.lt_of_lt_of_le hc h1)
          simp [h2]

theorem fullStale_frame (tripId : String) (st st2 : KVState)
    (hs : st2.entries (.staleK tripId) = st.entries (.staleK tripId))
    (hf : st2.entries (.fullK tripId) = st.entries (.fullK tripId))
    (hn : st.now ≤ st2.now)
    (hinv : FullStaleInv tripId st) : FullStaleInv tripId st2 := by
  obtain ⟨E, hE, hP⟩ := hinv
  refine ⟨E, by rw [hs]; exact hE, ?_⟩
  intro e he
  rw [hf] at he
  exact ⟨(hP e he).1,
    Nat.le_trans (hP e he).2 (Nat.add_le_add_right hn _)⟩

theorem tryWrite_preserves_fullStale (tripId : String) (st : KVState)
    (k : CacheKey) (v : KVValue) (ttl : Nat)
    (h1 : CacheKey.staleK tripId ≠ k) (h2 : CacheKey.fullK tripId ≠ k)
    (hinv : FullStaleInv tripId st) :
    FullStaleInv tripId (tryWrite st k v ttl) :=
  fullStale_frame tripId st _ (tryWrite_entries_other st k v ttl _ h1)
    (tryWrite_entries_other st k v ttl _ h2)
    (Nat.le_of_eq (tryWrite_now st k v ttl).symm) hinv

theorem markStale_preserves_fullStale (tripId t : String) (st : KVState)
    (hinv : FullStaleInv tripId st) : FullStaleInv tripId (markStale st t) := by
  by_cases ht : t = tripId
  · subst ht
    by_cases hf : st.failSets (.staleK t) = true
    · rw [markStale_def, tryWrite_fail _ _ _ _ hf]
      exact hinv
    · obtain ⟨E, hE, hP⟩ := hinv
      refine ⟨st.now + TTL_FULL_TRIP, ?_, ?_⟩
      · rw [markStale_def]
        exact tryWrite_entries_self st _ _ _ (Bool.not_eq_true _ ▸ hf)
      · intro e he
        rw [markStale_def,
          tryWrite_entries_other st _ _ _ _ (by simp)] at he
        refine ⟨(hP e he).2, ?_⟩
        rw [markStale_def, tryWrite_now]
        exact (hP e he).2
  · exact tryWrite_preserves_fullStale tripId st _ _ _
      (by simp [Ne.symm ht]) (by simp) hinv

theorem foldl_preserves_fullStale {α : Type} (tripId : String)
    (f : KVState → α → KVState)
    (hf : ∀ st a, FullStaleInv tripId st → FullStaleInv tripId (f st a)) :
    ∀ (l : List α) (st : KVState), FullStaleInv tripId st →
      FullStaleInv tripId (l.foldl f st) := by
  intro l
  induction l with
  | nil => intro st h; exact h
  | cons a l ih => intro st h; exact ih _ (hf st a h)

theorem invalidateComponent_preserves_fullStale (tripId t : String)
    (cty : ComponentType) (cid : String) (st : KVState)
    (hinv : FullStaleInv tripId st) :
    FullStaleInv tripId (invalidateComponent st t cty cid) := by
  unfold invalidateComponent
  rcases hsk : setKV st (componentKey cty cid) .vInvalid 1 with _ | st1
  · exact hinv
  · apply markStale_preserves_fullStale
    unfold setKV at hsk
    by_cases hf : st.failSets (componentKey cty cid) = true
    · simp [hf] at hsk
    · rw [if_neg (by simp [hf])] at hsk
      injection hsk with h
      subst h
      refine fullStale_frame tripId st _ ?_ ?_ (Nat.le_refl _) hinv
      · have : CacheKey.staleK tripId ≠ componentKey cty cid := by
          cases cty <;> simp [componentKey]
        simp [this]
      · have : CacheKey.fullK tripId ≠ componentKey cty cid := by
          cases cty <;> simp [componentKey]
        simp [this]

theorem smartSave_preserves_fullStale (tripId t : String) (c : SmartChanges)
    (st : KVState) (hinv : FullStaleInv tripId st) :
    FullStaleInv tripId (smartSave st t c) := by
  unfold smartSave
  apply markStale_preserves_fullStale
  unfold smartSavePre
  have h1 : FullStaleInv tripId (match c.metadata with
      | some m =>
        match getMetadata st t with
        | some v => if v.truthy then setMetadata st t m else st
        | none => st
      | none => st) := by
    rcases c.metadata with _ | m
    · exact hinv
    · rcases getMetadata st t with _ | v
      · exact hinv
      · by_cases htr : v.truthy = true
        · simp only [htr, if_true]
          exact tryWrite_preserves_fullStale tripId st _ _ _
            (by simp) (by simp) hinv
        · simp only [htr, if_false]
          exact hinv
  have h2 := foldl_preserves_fullStale tripId
    (fun acc (p : String × TripDay) => setDay acc p.1 p.2 true)
    (fun st2 p hp => tryWrite_preserves_fullStale tripId st2 _ _ _
      (by simp) (by simp) hp) c.days _ h1
  have h3 := foldl_preserves_fullStale tripId
    (fun acc (p : String × Activity) => setActivity acc p.1 p.2 true)
    (fun st2 p hp => tryWrite_preserves_fullStale tripId st2 _ _ _
      (by simp) (by simp) hp) c.activities _ h2
  rcases c.structureIdx with _ | s
  · exact h3
  · exact tryWrite_preserves_fullStale tripId _ _ _ _ (by simp) (by simp) h3

theorem setFullTrip_preserves_fullStale (tripId t : String) (ht : t ≠ tripId)
    (tr : TripData) (st : KVState) (hinv : FullStaleInv tripId st) :
    FullStaleInv tripId (setFullTrip st t tr) := by
  unfold setFullTrip
  rcases hsk : setKV st (.fullK t) (.vFull tr) TTL_FULL_TRIP with _ | st1
  · exact hinv
  · apply tryWrite_preserves_fullStale tripId st1 _ _ _
      (by simp [Ne.symm ht]) (by simp)
    unfold setKV at hsk
    by_cases hf : st.failSets (.fullK t) = true
    · simp [hf] at hsk
    · rw [if_neg (by simp [hf])] at hsk
      injection hsk with h
      subst h
      refine fullStale_frame tripId st _ ?_ ?_ (Nat.le_refl _) hinv
      · simp
      · simp [Ne.symm ht]

theorem clearKeys_ne (t tripId : String) (ht : t ≠ tripId)
    (s : TripStructure) (k : CacheKey) (hk : k ∈ clearKeys t s) :
    CacheKey.staleK tripId ≠ k ∧ CacheKey.fullK tripId ≠ k := by
  simp only [clearKeys, List.mem_append, List.mem_cons, List.mem_map,
    List.mem_singleton, List.not_mem_nil, or_false] at hk
  rcases hk with ((h | h | h | h | h) | ⟨i, hi, h⟩) | ⟨i, hi, h⟩ <;>
    subst h <;> exact ⟨by simp [Ne.symm ht], by simp [Ne.symm ht]⟩

theorem foldl_setSentinel_preserves_fullStale (tripId : String) :
    ∀ (l : List CacheKey), (∀ k ∈ l, CacheKey.staleK tripId ≠ k ∧
        CacheKey.fullK tripId ≠ k) →
      ∀ st, FullStaleInv tripId st →
        FullStaleInv tripId (l.foldl setSentinel st) := by
  intro l
  induction l with
  | nil => intro _ st h; exact h
  | cons k l ih =>
    intro hl st h
    rw [List.foldl_cons]
    refine ih (fun k2 hk2 => hl k2 (List.mem_cons_of_mem k hk2)) _ ?_
    have hs := setSentinel_def st k
    rw [hs]
    exact tryWrite_preserves_fullStale tripId st _ _ _
      (hl k (List.mem_cons_self k l)).1 (hl k (List.mem_cons_self k l)).2 h

theorem clearTripCache_preserves_fullStale (tripId t : String)
    (ht : t ≠ tripId) (st : KVState) (hinv : FullStaleInv tripId st) :
    FullStaleInv tripId ((clearTripCache st t).getD st) := by
  unfold clearTripCache
  rcases getStructure st t with _ | v
  · exact hinv
  · by_cases htr : v.truthy = true
    · simp only [htr, if_true]
      rcases v.asStruct with _ | s
      · exact hinv
      · simp only [Option.getD_some]
        exact foldl_setSentinel_preserves_fullStale tripId (clearKeys t s)
          (fun k hk => clearKeys_ne t tripId ht s k hk) st hinv
    · simp only [htr, if_false]
      exact hinv

theorem op_preserves_fullStale (tripId : String) (op : Op)
    (h : Op.mayWriteFullPath tripId op = false) (st : KVState)
    (hinv : FullStaleInv tripId st) : FullStaleInv tripId (Op.run st op) := by
  cases op with
  | opSetMetadata t m =>
    exact tryWrite_preserves_fullStale tripId st _ _ _ (by simp) (by simp) hinv
  | opSetDay i d e =>
    exact tryWrite_preserves_fullStale tripId st _ _ _ (by simp) (by simp) hinv
  | opSetActivity i a e =>
    exact tryWrite_preserves_fullStale tripId st _ _ _ (by simp) (by simp) hinv
  | opSetStructure t s =>
    exact tryWrite_preserves_fullStale tripId st _ _ _ (by simp) (by simp) hinv
  | opSetFullTrip t tr =>
    have ht : t ≠ tripId := by
      simp [Op.mayWriteFullPath] at h
      exact h
    exact setFullTrip_preserves_fullStale tripId t ht tr st hinv
  | opMarkStale t => exact markStale_preserves_fullStale tripId t st hinv
  | opInvalidate t c i =>
    exact invalidateComponent_preserves_fullStale tripId t c i st hinv
  | opSmartSave t c => exact smartSave_preserves_fullStale tripId t c st hinv
  | opClearTripCache t =>
    have ht : t ≠ tripId := by
      simp [Op.mayWriteFullPath] at h
      exact h
    exact clearTripCache_preserves_fullStale tripId t ht st hinv
  | opAdvance d =>
    exact fullStale_frame tripId st _ rfl rfl (Nat.le_add_right _ _) hinv

/-- C1 (staleness enforcement): once markStale has run for a trip (with
the stale-marker write reaching the store), every later whole-trip read
returns null, across any sequence of component writes, invalidations,
smart saves, repeated markStale calls and clock advances, as long as no
setFullTrip and no clearTripCache for that trip intervenes.  The
payload-expiry hypothesis holds in every reachable state because all
writes of the full-trip key use the full-trip TTL.  In particular a
cached payload whose TTL has not elapsed is still refused, and the
marker stays effective until a successful setFullTrip resets it to the
raw string false. -/
theorem c1_staleness_enforcement (st : KVState) (tripId : String)
    (ops : List Op)
    (hset : st.failSets (.staleK tripId) = false)
    (hfull : ∀ e, st.entries (.fullK tripId) = some e →
      e.expiresAt ≤ st.now + TTL_FULL_TRIP)
    (hops : ops.all (fun op => !(Op.mayWriteFullPath tripId op)) = true) :
    getFullTrip (runOps (markStale st tripId) ops) tripId = none := by
  apply fullStaleInv_getFullTrip
  have hbase : FullStaleInv tripId (markStale st tripId) := by
    refine ⟨st.now + TTL_FULL_TRIP, ?_, ?_⟩
    · rw [markStale_def]
      exact tryWrite_entries_self st _ _ _ hset
    · intro e he
      rw [markStale_def,
        tryWrite_entries_other st _ _ _ _ (by simp)] at he
      refine ⟨hfull e he, ?_⟩
      rw [markStale_def, tryWrite_now]
      exact hfull e he
  unfold runOps
  have hgen : ∀ (l : List Op) (st0 : KVState),
      l.all (fun op => !(Op.mayWriteFullPath tripId op)) = true →
      FullStaleInv tripId st0 → FullStaleInv tripId (l.foldl Op.run st0) := by
    intro l
    induction l with
    | nil => intro st0 _ h0; exact h0
    | cons op l ih =>
      intro st0 hall h0
      rw [List.foldl_cons]
      simp only [List.all_cons, Bool.and_eq_true] at hall
      refine ih _ hall.2 ?_
      have hop : Op.mayWriteFullPath tripId op = false := by
        have := hall.1
        simpa using this
      exact op_preserves_fullStale tripId op hop st0 h0
  exact hgen ops _ hops hbase

/-- A state for the C1 witness: an unexpired whole-trip payload is
cached at instant 0 with the full 900-second TTL ahead of it, and the
transport works. -/
def stC1 : KVState :=
  { now := 0,
    entries := fun k =>
      if k = CacheKey.fullK "t1"
      then some (KVEntry.mk (.vFull tripEx) 900)
      else none,
    failGets := fun _ => false, failSets := fun _ => false }

/-- Witness for C1: after markStale, a component write, a ten-second
clock advance and an invalidation, the whole-trip read is still a miss
even though the payload TTL has not elapsed. -/
theorem c1_staleness_enforcement_witness :
    getFullTrip (runOps (markStale stC1 "t1")
      [.opSetDay "d1" dayEx true, .opAdvance 10,
       .opInvalidate "t1" .activity "a1"]) "t1" = none := by
  refine c1_staleness_enforcement stC1 "t1" _ rfl ?_ rfl
  intro e he
  simp only [stC1, if_pos rfl] at he
  have he2 : KVEntry.mk (KVValue.vFull tripEx) 900 = e := Option.some.inj he
  rw [← he2]
  decide

/-- The day of the sample trip as a trip_days row. -/
def dayRowEx : DayRow :=
  { id := "d1", tripId := "t1", dayNumber := 1, title := "Day 1",
    subtitle := none, summary := none, createdAt := 5, updatedAt := 5 }

/-- The first sample activity as an activities row. -/
def actRowEx : ActivityRow :=
  { id := "a1", dayId := "d1", timeBlock := "morning",
    description := "see the park", orderIndex := 1, locationName := none,
    locationLat := none, locationLng := none, createdAt := 5, updatedAt := 5 }

/-- The second sample activity as an activities row. -/
def actRowEx2 : ActivityRow :=
  { id := "a2", dayId := "d1", timeBlock := "evening",
    description := "dinner", orderIndex := 2, locationName := none,
    locationLat := none, locationLng := none, createdAt := 5, updatedAt := 5 }

/-- The sample gem as a gems row. -/
def gemRowEx : GemRow :=
  { id := "g1", activityId := "a1", title := "Fountain", description := "gd",
    gemType := "tip", insiderInfo := none, createdAt := 1 }

/-- A database holding exactly the sample trip. -/
def dbEx : Database :=
  { trips := [metaEx], tripDays := [dayRowEx],
    activities := [actRowEx, actRowEx2], gems := [gemRowEx], nextId := 0 }

theorem dbEx_loads : loadFromDatabase dbEx "t1" = some tripEx := by decide

/-- C2 (partial-miss fallback): whenever the cached structure is absent,
or the cached metadata is absent, or the day Map resolves fewer entries
than the structure lists day ids, assembleFromCache reports failure
instead of a truncated document, and loadTripGranular (its whole-trip
fast path having missed) serves the request from the authoritative
database read. -/
theorem c2_partial_miss_fallback (st : KVState) (db : Database)
    (tripId : String)
    (hmiss : getFullTrip st tripId = none)
    (hcond : getStructure st tripId = none ∨ getMetadata st tripId = none ∨
      (∃ s, getStructure st tripId = some (.vStruct s) ∧
        getDaysSize st s.dayIds ≠ s.dayIds.length)) :
    assembleFromCache st tripId = none ∧
    (loadTripGranular st db tripId).1 =
      (match loadFromDatabase db tripId with
       | some t => LoadSource.database t
       | none => LoadSource.miss) := by
  have hasm : assembleFromCache st tripId = none := by
    unfold assembleFromCache
    rcases hcond with h | h | ⟨s, hs, hsz⟩
    · rw [h]
    · rw [h]
      rcases getStructure st tripId with _ | sv <;> rfl
    · rw [hs]
      rcases getMetadata st tripId with _ | mv
      · rfl
      · dsimp only
        by_cases hmv : mv.truthy = true
        · simp [KVValue.truthy, hmv, KVValue.asStruct, hsz]
        · simp [hmv]
  refine ⟨hasm, ?_⟩
  unfold loadTripGranular
  rw [hmiss, hasm]
  rcases loadFromDatabase db tripId with _ | t <;> rfl

/-- A cache state for the C2 witness: structure and metadata of the
sample trip are cached, but no day fragment is. -/
def stC2 : KVState :=
  { now := 0,
    entries := fun k =>
      if k = CacheKey.structureK "t1"
      then some (KVEntry.mk (.vStruct structEx) 100)
      else if k = CacheKey.metaK "t1"
      then some (KVEntry.mk (.vMeta metaEx) 100)
      else none,
    failGets := fun _ => false, failSets := fun _ => false }

/-- Witness for C2: with the day fragment missing, assembly fails and
the loader answers from the database. -/
theorem c2_partial_miss_fallback_witness :
    assembleFromCache stC2 "t1" = none ∧
    (loadTripGranular stC2 dbEx "t1").1 =
      (match loadFromDatabase dbEx "t1" with
       | some t => LoadSource.database t
       | none => LoadSource.miss) :=
  c2_partial_miss_fallback stC2 dbEx "t1" (by decide)
    (Or.inr (Or.inr ⟨structEx, by decide, by decide⟩))

theorem filterMap_congr_some {α β : Type} (g : α → Option β) (f : α → β) :
    ∀ (l : List α), (∀ a ∈ l, g a = some (f a)) → l.filterMap g = l.map f := by
  intro l
  induction l with
  | nil => intro _; rfl
  | cons a l ih =>
    intro h
    rw [List.filterMap_cons, h a (List.mem_cons_self a l), List.map_cons,
      ih (fun b hb => h b (List.mem_cons_of_mem a hb))]

theorem getDaysSize_all_present (st : KVState) (dayIds : List String)
    (D : String → TripDay) (hnd : dayIds.Nodup)
    (hd : ∀ id ∈ dayIds, getDay st id = some (.vDay (D id))) :
    getDaysSize st dayIds = dayIds.length := by
  unfold getDaysSize
  rw [List.dedup_eq_self.mpr hnd]
  rw [List.filter_eq_self.mpr]
  intro id hid
  rw [hd id hid]
  rfl

/-- Evaluation of the assembler when structure, metadata and every day
fragment are cached with their declared shapes: assembly succeeds and
returns, for each day id in structure order, the cached day with its
activities replaced by the resolved entries of its structure-listed
activity ids, in that order. -/
theorem assembleFromCache_eval (st : KVState) (tripId : String)
    (s : TripStructure) (m : TripMetadata) (D : String → TripDay)
    (hs : getStructure st tripId = some (.vStruct s))
    (hm : getMetadata st tripId = some (.vMeta m))
    (hnd : s.dayIds.Nodup)
    (hd : ∀ id ∈ s.dayIds, getDay st id = some (.vDay (D id))) :
    assembleFromCache st tripId =
      some (m.withDays (s.dayIds.map (fun dayId =>
        (D dayId).withActivities
          (((jsGet s.dayMap dayId).getD []).filterMap (fun actId =>
            match getActivitiesAt st (s.activityMap.map Prod.fst) actId with
            | none => none
            | some av => av.asAct))))) := by
  unfold assembleFromCache
  rw [hs, hm]
  dsimp only
  rw [if_pos (show ((KVValue.vStruct s).truthy &&
      (KVValue.vMeta m).truthy) = true from rfl)]
  dsimp only [KVValue.asStruct]
  rw [if_pos (getDaysSize_all_present st s.dayIds D hnd hd)]
  dsimp only [KVValue.asMeta]
  congr 1
  congr 1
  rw [filterMap_congr_some _ (fun dayId =>
    (D dayId).withActivities
      (((jsGet s.dayMap dayId).getD []).filterMap (fun actId =>
        match getActivitiesAt st (s.activityMap.map Prod.fst) actId with
        | none => none
        | some av => av.asAct)))]
  intro dayId hdayId
  unfold getDaysAt
  rw [if_pos hdayId, hd dayId hdayId]
  rfl

theorem filterMap_congr_mem {α β : Type} (g h : α → Option β) :
    ∀ (l : List α), (∀ a ∈ l, g a = h a) → l.filterMap g = l.filterMap h := by
  intro l
  induction l with
  | nil => intro _; rfl
  | cons a l ih =>
    intro hp
    rw [List.filterMap_cons, List.filterMap_cons,
      hp a (List.mem_cons_self a l),
      ih (fun b hb => hp b (List.mem_cons_of_mem a hb))]

theorem filterMap_if_eq_filter_map {α β : Type} (p : α → Prop) [DecidablePred p]
    (f : α → β) :
    ∀ (l : List α), l.filterMap (fun a => if p a then some (f a) else none)
      = (l.filter (fun a => decide (p a))).map f := by
  intro l
  induction l with
  | nil => rfl
  | cons a l ih =>
    by_cases hp : p a
    · simp [List.filterMap_cons, List.filter_cons, hp, ih]
    · simp [List.filterMap_cons, List.filter_cons, hp, ih]

theorem filter_ne_length {α : Type} [DecidableEq α] (missing : α) :
    ∀ (l : List α), l.Nodup → missing ∈ l →
      (l.filter (fun a => decide (a ≠ missing))).length + 1 = l.length := by
  intro l
  induction l with
  | nil => intro _ h; cases h
  | cons a l ih =>
    intro hnd hmem
    by_cases ha : a = missing
    · subst ha
      rw [List.filter_cons_of_neg (by simp)]
      have hnotin : a ∉ l := (List.nodup_cons.mp hnd).1
      rw [List.filter_eq_self.mpr]
      · rfl
      · intro b hb
        simp only [decide_eq_true_eq]
        exact fun hba => hnotin (hba ▸ hb)
    · rw [List.filter_cons_of_pos (by simpa using ha)]
      have hmem2 : missing ∈ l := by
        rcases List.mem_cons.mp hmem with h | h
        · exact absurd h.symm ha
        · exact h
      have h2 := ih (List.nodup_cons.mp hnd).2 hmem2
      simp only [List.length_cons]
      omega

/-- C4 (degraded leaf resolution): when structure, metadata and every
day fragment resolve but one activity fragment listed by the structure
is absent, assembly still succeeds; the day owning the missing activity
id carries exactly the resolved activities of its structure list, in
order, which is one item fewer than the structure lists. -/
theorem c4_degraded_leaf_resolution
    (st : KVState) (tripId : String) (s : TripStructure) (m : TripMetadata)
    (D : String → TripDay) (A : String → Activity)
    (missing d0 : String) (L : List String)
    (hs : getStructure st tripId = some (.vStruct s))
    (hm : getMetadata st tripId = some (.vMeta m))
    (hnd : s.dayIds.Nodup)
    (hd : ∀ id ∈ s.dayIds, getDay st id = some (.vDay (D id)))
    (ha : ∀ id ∈ s.activityMap.map Prod.fst, id ≠ missing →
      getActivity st id = some (.vAct (A id)))
    (hmissNone : getActivity st missing = none)
    (hd0 : d0 ∈ s.dayIds)
    (hL : jsGet s.dayMap d0 = some L)
    (hLnd : L.Nodup)
    (hLsub : ∀ id ∈ L, id ∈ s.activityMap.map Prod.fst)
    (hmem : missing ∈ L) :
    assembleFromCache st tripId =
      some (m.withDays (s.dayIds.map (fun dayId =>
        (D dayId).withActivities
          (((jsGet s.dayMap dayId).getD []).filterMap (fun actId =>
            if actId ∈ s.activityMap.map Prod.fst ∧ actId ≠ missing
            then some (A actId) else none))))) ∧
    ((jsGet s.dayMap d0).getD []).filterMap (fun actId =>
        if actId ∈ s.activityMap.map Prod.fst ∧ actId ≠ missing
        then some (A actId) else none)
      = (L.filter (fun id => decide (id ≠ missing))).map A ∧
    ((L.filter (fun id => decide (id ≠ missing))).map A).length + 1
      = L.length := by
  have hgg : (fun actId =>
      match getActivitiesAt st (s.activityMap.map Prod.fst) actId with
      | none => none
      | some av => av.asAct) = (fun actId =>
      if actId ∈ s.activityMap.map Prod.fst ∧ actId ≠ missing
      then some (A actId) else none) := by
    funext actId
    unfold getActivitiesAt
    by_cases hk : actId ∈ s.activityMap.map Prod.fst
    · by_cases hne : actId = missing
      · subst hne
        rw [if_pos hk, hmissNone, if_neg (fun h => h.2 rfl)]
      · rw [if_pos hk, ha actId hk hne, if_pos ⟨hk, hne⟩]
        rfl
    · rw [if_neg hk, if_neg (fun h => hk h.1)]
  have hsecond : ((jsGet s.dayMap d0).getD []).filterMap (fun actId =>
      if actId ∈ s.activityMap.map Prod.fst ∧ actId ≠ missing
      then some (A actId) else none)
      = (L.filter (fun id => decide (id ≠ missing))).map A := by
    rw [hL, Option.getD_some]
    have hpt : ∀ a ∈ L, (if a ∈ s.activityMap.map Prod.fst ∧ a ≠ missing
        then some (A a) else none)
        = (if a ≠ missing then some (A a) else none) := by
      intro a haL
      by_cases hne : a = missing
      · subst hne
        rw [if_neg (fun h => h.2 rfl), if_neg (fun h => h rfl)]
      · rw [if_pos ⟨hLsub a haL, hne⟩, if_pos hne]
    rw [filterMap_congr_mem _ _ L hpt]
    exact filterMap_if_eq_filter_map (fun actId => actId ≠ missing) A L
  refine ⟨?_, hsecond, ?_⟩
  · rw [assembleFromCache_eval st tripId s m D hs hm hnd hd, hgg]
  · rw [List.length_map]
    exact filter_ne_length missing L hLnd hmem

/-- A cache state for the C4 witness: structure, metadata, the day and
activity a1 of the sample trip are cached; activity a2 is absent. -/
def stC4 : KVState :=
  { now := 0,
    entries := fun k =>
      if k = CacheKey.structureK "t1"
      then some (KVEntry.mk (.vStruct structEx) 100)
      else if k = CacheKey.metaK "t1"
      then some (KVEntry.mk (.vMeta metaEx) 100)
      else if k = CacheKey.dayK "d1"
      then some (KVEntry.mk (.vDay dayEx) 100)
      else if k = CacheKey.activityK "a1"
      then some (KVEntry.mk (.vAct actEx) 100)
      else none,
    failGets := fun _ => false, failSets := fun _ => false }

/-- Witness for C4: with activity a2 missing from the cache, assembly
returns the trip with day d1 holding only activity a1. -/
theorem c4_degraded_leaf_resolution_witness :
    assembleFromCache stC4 "t1" =
      some (metaEx.withDays [dayEx.withActivities [actEx]]) := by
  have h := c4_degraded_leaf_resolution stC4 "t1" structEx metaEx
    (fun _ => dayEx) (fun _ => actEx) "a2" "d1" ["a1", "a2"]
    (by decide) (by decide) (by decide) (by decide) (by decide) (by decide)
    (by decide) (by decide) (by decide) (by decide) (by decide)
  rw [h.1]
  decide

theorem map_mem_id {α : Type} (f : α → α) :
    ∀ (l : List α), (∀ a ∈ l, f a = a) → l.map f = l := by
  intro l
  induction l with
  | nil => intro _; rfl
  | cons a l ih =>
    intro h
    rw [List.map_cons, h a (List.mem_cons_self a l),
      ih (fun b hb => h b (List.mem_cons_of_mem a hb))]

/-- C3 (round-trip): for a trip t read from the authoritative store,
when the cache is consistent with the store (the structure lists exactly
the day ids of t in order and, per day, its activity ids in order; the
metadata entry is the scalar part of t; every day and activity fragment
of t is cached under its id), the assembled document equals t: the same
sections in the structure-dictated order, each with the same items in
the structure-dictated order, with the same field values.  The D and A
functions express consistency of the per-id cache entries with t
(D d.id = d and A a.id = a), which also rules out duplicate ids, as the
primary keys of the store do. -/
theorem c3_round_trip
    (st : KVState) (db : Database) (tripId : String) (t : TripData)
    (s : TripStructure) (D : String → TripDay) (A : String → Activity)
    (hload : loadFromDatabase db tripId = some t)
    (hs : getStructure st tripId = some (.vStruct s))
    (hm : getMetadata st tripId = some (.vMeta t.metaOf))
    (hsd : s.dayIds = t.days.map TripDay.id)
    (hsm : ∀ d ∈ t.days,
      jsGet s.dayMap d.id = some (d.activities.map Activity.id))
    (hsa : s.activityMap.map Prod.fst
      = t.days.flatMap (fun d => d.activities.map Activity.id))
    (hnd : (t.days.map TripDay.id).Nodup)
    (hD : ∀ d ∈ t.days, D d.id = d)
    (hA : ∀ d ∈ t.days, ∀ a ∈ d.activities, A a.id = a)
    (hd : ∀ id ∈ s.dayIds, getDay st id = some (.vDay (D id)))
    (ha : ∀ id ∈ s.activityMap.map Prod.fst,
      getActivity st id = some (.vAct (A id))) :
    assembleFromCache st tripId = some t := by
  rw [assembleFromCache_eval st tripId s t.metaOf D hs hm
    (by rw [hsd]; exact hnd) hd]
  have hdays : s.dayIds.map (fun dayId =>
      (D dayId).withActivities
        (((jsGet s.dayMap dayId).getD []).filterMap (fun actId =>
          match getActivitiesAt st (s.activityMap.map Prod.fst) actId with
          | none => none
          | some av => av.asAct))) = t.days := by
    rw [hsd, List.map_map]
    refine map_mem_id _ t.days ?_
    intro d hd2
    dsimp only [Function.comp]
    rw [hD d hd2, hsm d hd2, Option.getD_some, List.filterMap_map]
    rw [filterMap_congr_some _ (fun a => a) d.activities ?_]
    · rw [map_mem_id _ d.activities (fun _ _ => rfl)]
      cases d
      rfl
    · intro a ha2
      have hmemk : a.id ∈ s.activityMap.map Prod.fst := by
        rw [hsa]
        exact List.mem_flatMap.mpr ⟨d, hd2, List.mem_map_of_mem Activity.id ha2⟩
      show (match getActivitiesAt st (s.activityMap.map Prod.fst) a.id with
        | none => none
        | some av => av.asAct) = some a
      unfold getActivitiesAt
      rw [if_pos hmemk, ha a.id hmemk]
      show some (A a.id) = some a
      rw [hA d hd2 a ha2]
  rw [hdays]
  cases t
  rfl

/-- A fully populated, consistent cache state for the C3 witness. -/
def stC3 : KVState :=
  { now := 0,
    entries := fun k =>
      if k = CacheKey.structureK "t1"
      then some (KVEntry.mk (.vStruct structEx) 100)
      else if k = CacheKey.metaK "t1"
      then some (KVEntry.mk (.vMeta metaEx) 100)
      else if k = CacheKey.dayK "d1"
      then some (KVEntry.mk (.vDay dayEx) 100)
      else if k = CacheKey.activityK "a1"
      then some (KVEntry.mk (.vAct actEx) 100)
      else if k = CacheKey.activityK "a2"
      then some (KVEntry.mk (.vAct actEx2) 100)
      else none,
    failGets := fun _ => false, failSets := fun _ => false }

/-- Witness for C3: assembling the fully cached sample trip returns
exactly the document the database read returns. -/
theorem c3_round_trip_witness : assembleFromCache stC3 "t1" = some tripEx :=
  c3_round_trip stC3 dbEx "t1" tripEx structEx (fun _ => dayEx)
    (fun id => if id = "a2" then actEx2 else actEx)
    (by decide) (by decide) (by decide) (by decide) (by decide) (by decide)
    (by decide) (by decide) (by decide) (by decide) (by decide)

/-- The world left behind by an Except-shaped save step returning a
world on both sides. -/
def exWorld : Except World World → World
  | .ok w => w
  | .error w => w

/-- The world left behind by an Except-shaped save step that pairs the
world with pending cache updates on success. -/
def exWorldP {α : Type} : Except World (World × α) → World
  | .ok (w, _) => w
  | .error w => w

theorem metadataPhase_kv (w : World) (c : SaveChanges) :
    (exWorld (metadataPhase w c)).kv = w.kv := by
  unfold metadataPhase dbCallFails
  rcases c.metadata with _ | mc
  · rfl
  · dsimp only
    split
    · split <;> rfl
    · rfl

theorem insertDaysLoop_kv (tripId : String) :
    ∀ (ds : List TripDay) (w : World) (pend : List (String × TripDay)),
      (exWorldP (insertDaysLoop tripId w pend ds)).kv = w.kv := by
  intro ds
  induction ds with
  | nil => intro w pend; rfl
  | cons d ds ih =>
    intro w pend
    unfold insertDaysLoop dbCallFails
    dsimp only
    split
    · rfl
    · exact ih _ _

theorem updateDaysLoop_kv :
    ∀ (ds : List TripDay) (w : World) (pend : List (String × TripDay)),
      (exWorldP (updateDaysLoop w pend ds)).kv = w.kv := by
  intro ds
  induction ds with
  | nil => intro w pend; rfl
  | cons d ds ih =>
    intro w pend
    unfold updateDaysLoop dbCallFails
    dsimp only
    split
    · rfl
    · exact ih _ _

theorem insertActivitiesLoop_kv :
    ∀ (as2 : List Activity) (w : World) (pend : List (String × Activity)),
      (exWorldP (insertActivitiesLoop w pend as2)).kv = w.kv := by
  intro as2
  induction as2 with
  | nil => intro w pend; rfl
  | cons a as2 ih =>
    intro w pend
    unfold insertActivitiesLoop dbCallFails
    dsimp only
    split
    · rfl
    · exact ih _ _

theorem updateActivitiesLoop_kv :
    ∀ (as2 : List Activity) (w : World) (pend : List (String × Activity)),
      (exWorldP (updateActivitiesLoop w pend as2)).kv = w.kv := by
  intro as2
  induction as2 with
  | nil => intro w pend; rfl
  | cons a as2 ih =>
    intro w pend
    unfold updateActivitiesLoop dbCallFails
    dsimp only
    split
    · rfl
    · exact ih _ _

theorem invalidateComponent_failSets (st : KVState) (t : String)
    (cty : ComponentType) (cid : String) :
    (invalidateComponent st t cty cid).failSets = st.failSets := by
  unfold invalidateComponent
  rcases hsk : setKV st (componentKey cty cid) .vInvalid 1 with _ | st1
  · rfl
  · dsimp only
    rw [markStale_def, tryWrite_failSets]
    unfold setKV at hsk
    by_cases hf : st.failSets (componentKey cty cid) = true
    · simp [hf] at hsk
    · rw [if_neg (by simp [hf])] at hsk
      injection hsk with h
      subst h
      rfl

theorem invalidateComponent_failGets (st : KVState) (t : String)
    (cty : ComponentType) (cid : String) :
    (invalidateComponent st t cty cid).failGets = st.failGets := by
  unfold invalidateComponent
  rcases hsk : setKV st (componentKey cty cid) .vInvalid 1 with _ | st1
  · rfl
  · dsimp only
    rw [markStale_def, tryWrite_failGets]
    unfold setKV at hsk
    by_cases hf : st.failSets (componentKey cty cid) = true
    · simp [hf] at hsk
    · rw [if_neg (by simp [hf])] at hsk
      injection hsk with h
      subst h
      rfl

theorem invalidateComponent_now (st : KVState) (t : String)
    (cty : ComponentType) (cid : String) :
    (invalidateComponent st t cty cid).now = st.now := by
  unfold invalidateComponent
  rcases hsk : setKV st (componentKey cty cid) .vInvalid 1 with _ | st1
  · rfl
  · dsimp only
    rw [markStale_def, tryWrite_now]
    unfold setKV at hsk
    by_cases hf : st.failSets (componentKey cty cid) = true
    · simp [hf] at hsk
    · rw [if_neg (by simp [hf])] at hsk
      injection hsk with h
      subst h
      rfl

theorem invalidateComponent_entries_other (st : KVState) (t : String)
    (cty : ComponentType) (cid : String) (k : CacheKey)
    (h1 : k ≠ componentKey cty cid) (h2 : k ≠ CacheKey.staleK t) :
    (invalidateComponent st t cty cid).entries k = st.entries k := by
  unfold invalidateComponent
  rcases hsk : setKV st (componentKey cty cid) .vInvalid 1 with _ | st1
  · rfl
  · dsimp only
    rw [markStale_def, tryWrite_entries_other _ _ _ _ _ h2]
    unfold setKV at hsk
    by_cases hf : st.failSets (componentKey cty cid) = true
    · simp [hf] at hsk
    · rw [if_neg (by simp [hf])] at hsk
      injection hsk with h
      subst h
      simp [h1]

theorem foldl_invalidate_kvproj {β : Type} (proj : KVState → β)
    (hInv : ∀ st t2 cty cid, proj (invalidateComponent st t2 cty cid)
      = proj st) (tid : String) (cty : ComponentType) :
    ∀ (l : List String) (w0 : World),
      proj ((l.foldl (fun acc id =>
        { acc with kv := invalidateComponent acc.kv tid cty id }) w0).kv)
        = proj w0.kv := by
  intro l
  induction l with
  | nil => intro w0; rfl
  | cons i l ih =>
    intro w0
    rw [List.foldl_cons, ih]
    exact hInv _ _ _ _

theorem deleteDaysPhase_kvproj {β : Type} (proj : KVState → β)
    (hInv : ∀ st t2 cty cid, proj (invalidateComponent st t2 cty cid)
      = proj st) (w : World) (tid : String) (ids : List String) :
    proj ((exWorld (deleteDaysPhase w tid ids)).kv) = proj w.kv := by
  unfold deleteDaysPhase dbCallFails
  split
  · rfl
  · dsimp only
    split
    · rfl
    · dsimp only [exWorld]
      rw [foldl_invalidate_kvproj proj hInv tid .day ids]

theorem deleteActivitiesPhase_kvproj {β : Type} (proj : KVState → β)
    (hInv : ∀ st t2 cty cid, proj (invalidateComponent st t2 cty cid)
      = proj st) (w : World) (tid : String) (ids : List String) :
    proj ((exWorld (deleteActivitiesPhase w tid ids)).kv) = proj w.kv := by
  unfold deleteActivitiesPhase dbCallFails
  split
  · rfl
  · dsimp only
    split
    · rfl
    · dsimp only [exWorld]
      rw [foldl_invalidate_kvproj proj hInv tid .activity ids]

theorem daysPhase_kvproj {β : Type} (proj : KVState → β)
    (hInv : ∀ st t2 cty cid, proj (invalidateComponent st t2 cty cid)
      = proj st) (w : World) (c : SaveChanges) :
    proj ((exWorldP (daysPhase w c)).kv) = proj w.kv := by
  unfold daysPhase
  rcases c.days with _ | dg
  · rfl
  · dsimp only
    have e1 := insertDaysLoop_kv c.tripId (dg.added.getD []) w []
    rcases h1 : insertDaysLoop c.tripId w [] (dg.added.getD [])
      with wf | ⟨w1, pend1⟩
    · rw [h1] at e1
      dsimp only [exWorldP] at e1 ⊢
      rw [e1]
    · rw [h1] at e1
      dsimp only [exWorldP] at e1
      dsimp only
      have e2 := updateDaysLoop_kv (dg.updated.getD []) w1 pend1
      rcases h2 : updateDaysLoop w1 pend1 (dg.updated.getD [])
        with wf | ⟨w2, pend2⟩
      · rw [h2] at e2
        dsimp only [exWorldP] at e2 ⊢
        rw [e2, e1]
      · rw [h2] at e2
        dsimp only [exWorldP] at e2
        dsimp only
        have e3 := deleteDaysPhase_kvproj proj hInv w2 c.tripId
          (dg.deleted.getD [])
        rcases h3 : deleteDaysPhase w2 c.tripId (dg.deleted.getD [])
          with wf | w3
        · rw [h3] at e3
          dsimp only [exWorld, exWorldP] at e3 ⊢
          rw [e3, e2, e1]
        · rw [h3] at e3
          dsimp only [exWorld, exWorldP] at e3 ⊢
          rw [e3, e2, e1]

theorem activitiesPhase_kvproj {β : Type} (proj : KVState → β)
    (hInv : ∀ st t2 cty cid, proj (invalidateComponent st t2 cty cid)
      = proj st) (w : World) (c : SaveChanges) :
    proj ((exWorldP (activitiesPhase w c)).kv) = proj w.kv := by
  unfold activitiesPhase
  rcases c.activities with _ | ag
  · rfl
  · dsimp only
    have e1 := insertActivitiesLoop_kv (ag.added.getD []) w []
    rcases h1 : insertActivitiesLoop w [] (ag.added.getD [])
      with wf | ⟨w1, pend1⟩
    · rw [h1] at e1
      dsimp only [exWorldP] at e1 ⊢
      rw [e1]
    · rw [h1] at e1
      dsimp only [exWorldP] at e1
      dsimp only
      have e2 := updateActivitiesLoop_kv (ag.updated.getD []) w1 pend1
      rcases h2 : updateActivitiesLoop w1 pend1 (ag.updated.getD [])
        with wf | ⟨w2, pend2⟩
      · rw [h2] at e2
        dsimp only [exWorldP] at e2 ⊢
        rw [e2, e1]
      · rw [h2] at e2
        dsimp only [exWorldP] at e2
        dsimp only
        have e3 := deleteActivitiesPhase_kvproj proj hInv w2 c.tripId
          (ag.deleted.getD [])
        rcases h3 : deleteActivitiesPhase w2 c.tripId (ag.deleted.getD [])
          with wf | w3
        · rw [h3] at e3
          dsimp only [exWorld, exWorldP] at e3 ⊢
          rw [e3, e2, e1]
        · rw [h3] at e3
          dsimp only [exWorld, exWorldP] at e3 ⊢
          rw [e3, e2, e1]

theorem foldl_proj_preserved {α β : Type} (proj : KVState → β)
    (f : KVState → α → KVState) (hf : ∀ st a, proj (f st a) = proj st) :
    ∀ (l : List α) (st : KVState), proj (l.foldl f st) = proj st := by
  intro l
  induction l with
  | nil => intro st; rfl
  | cons a l ih =>
    intro st
    rw [List.foldl_cons, ih, hf]

theorem foldl_kvset_not_mem {γ : Type} (K : String → CacheKey)
    (V : γ → KVValue) (ttl : Nat) :
    ∀ (l : List (String × γ)) (st : KVState) (k : CacheKey),
      (∀ p ∈ l, k ≠ K p.1) →
      (l.foldl (fun acc p => tryWrite acc (K p.1) (V p.2) ttl) st).entries k
        = st.entries k := by
  intro l
  induction l with
  | nil => intro st k _; rfl
  | cons p l ih =>
    intro st k h
    rw [List.foldl_cons, ih _ k (fun q hq => h q (List.mem_cons_of_mem p hq)),
      tryWrite_entries_other _ _ _ _ _ (h p (List.mem_cons_self p l))]

theorem foldl_kvset_mem {γ : Type} (K : String → CacheKey)
    (hK : ∀ a b : String, K a = K b → a = b) (V : γ → KVValue) (ttl : Nat) :
    ∀ (l : List (String × γ)) (st : KVState) (id : String) (g : γ),
      (id, g) ∈ l → (l.map Prod.fst).Nodup → st.failSets (K id) = false →
      (l.foldl (fun acc p => tryWrite acc (K p.1) (V p.2) ttl) st).entries
        (K id) = some ⟨V g, st.now + ttl⟩ := by
  intro l
  induction l with
  | nil => intro st id g hmem; cases hmem
  | cons p l ih =>
    intro st id g hmem hnd hfs
    rw [List.foldl_cons]
    rcases List.mem_cons.mp hmem with h | h
    · subst h
      have hkeys : ∀ q ∈ l, K id ≠ K q.1 := by
        intro q hq hkeq
        have : id = q.1 := hK _ _ hkeq
        have hin : id ∈ l.map Prod.fst := this ▸ List.mem_map_of_mem Prod.fst hq
        exact (List.nodup_cons.mp hnd).1 hin
      rw [foldl_kvset_not_mem K V ttl l _ (K id) hkeys,
        tryWrite_entries_self st _ _ _ hfs]
    · have hne : id ≠ p.1 := by
        intro he
        have hin : id ∈ l.map Prod.fst := List.mem_map_of_mem Prod.fst h
        rw [he] at hin
        exact (List.nodup_cons.mp hnd).1 hin
      have := ih (tryWrite st (K p.1) (V p.2) ttl) id g h
        (List.nodup_cons.mp hnd).2
        (by rw [tryWrite_failSets]; exact hfs)
      rw [this, tryWrite_now]

theorem smartSavePre_failSets (st : KVState) (tid : String)
    (c : SmartChanges) : (smartSavePre st tid c).failSets = st.failSets := by
  unfold smartSavePre
  have h1 : (match c.metadata with
      | some m =>
        match getMetadata st tid with
        | some v => if v.truthy then setMetadata st tid m else st
        | none => st
      | none => st).failSets = st.failSets := by
    rcases c.metadata with _ | m
    · rfl
    · rcases getMetadata st tid with _ | v
      · rfl
      · dsimp only
        split
        · exact tryWrite_failSets _ _ _ _
        · rfl
  have h2 := foldl_proj_preserved KVState.failSets
    (fun acc (p : String × TripDay) => setDay acc p.1 p.2 true)
    (fun st2 p => tryWrite_failSets st2 _ _ _) c.days
  have h3 := foldl_proj_preserved KVState.failSets
    (fun acc (p : String × Activity) => setActivity acc p.1 p.2 true)
    (fun st2 p => tryWrite_failSets st2 _ _ _) c.activities
  rcases c.structureIdx with _ | s
  · dsimp only
    rw [h3, h2, h1]
  · dsimp only
    rw [setStructure_def, tryWrite_failSets, h3, h2, h1]

theorem smartSavePre_now (st : KVState) (tid : String)
    (c : SmartChanges) : (smartSavePre st tid c).now = st.now := by
  unfold smartSavePre
  have h1 : (match c.metadata with
      | some m =>
        match getMetadata st tid with
        | some v => if v.truthy then setMetadata st tid m else st
        | none => st
      | none => st).now = st.now := by
    rcases c.metadata with _ | m
    · rfl
    · rcases getMetadata st tid with _ | v
      · rfl
      · dsimp only
        split
        · exact tryWrite_now _ _ _ _
        · rfl
  have h2 := foldl_proj_preserved KVState.now
    (fun acc (p : String × TripDay) => setDay acc p.1 p.2 true)
    (fun st2 p => tryWrite_now st2 _ _ _) c.days
  have h3 := foldl_proj_preserved KVState.now
    (fun acc (p : String × Activity) => setActivity acc p.1 p.2 true)
    (fun st2 p => tryWrite_now st2 _ _ _) c.activities
  rcases c.structureIdx with _ | s
  · dsimp only
    rw [h3, h2, h1]
  · dsimp only
    rw [setStructure_def, tryWrite_now, h3, h2, h1]

theorem smartSavePre_failGets (st : KVState) (tid : String)
    (c : SmartChanges) : (smartSavePre st tid c).failGets = st.failGets := by
  unfold smartSavePre
  have h1 : (match c.metadata with
      | some m =>
        match getMetadata st tid with
        | some v => if v.truthy then setMetadata st tid m else st
        | none => st
      | none => st).failGets = st.failGets := by
    rcases c.metadata with _ | m
    · rfl
    · rcases getMetadata st tid with _ | v
      · rfl
      · dsimp only
        split
        · exact tryWrite_failGets _ _ _ _
        · rfl
  have h2 := foldl_proj_preserved KVState.failGets
    (fun acc (p : String × TripDay) => setDay acc p.1 p.2 true)
    (fun st2 p => tryWrite_failGets st2 _ _ _) c.days
  have h3 := foldl_proj_preserved KVState.failGets
    (fun acc (p : String × Activity) => setActivity acc p.1 p.2 true)
    (fun st2 p => tryWrite_failGets st2 _ _ _) c.activities
  rcases c.structureIdx with _ | s
  · dsimp only
    rw [h3, h2, h1]
  · dsimp only
    rw [setStructure_def, tryWrite_failGets, h3, h2, h1]

theorem smartSave_stale (st : KVState) (tid : String) (c : SmartChanges)
    (hfs : st.failSets (.staleK tid) = false) :
    (smartSave st tid c).entries (.staleK tid)
      = some ⟨.vBool true, st.now + TTL_FULL_TRIP⟩ ∧
    (smartSave st tid c).now = st.now := by
  unfold smartSave
  constructor
  · rw [markStale_def, tryWrite_entries_self _ _ _ _
      (by rw [smartSavePre_failSets]; exact hfs), smartSavePre_now]
  · rw [markStale_def, tryWrite_now, smartSavePre_now]

/-- C7 (unconditional staleness on write): every successful write path
leaves the stale marker of the owning trip set to the raw string true
with a fresh full-trip TTL: the bundle path saveGranularChanges (whose
cache propagation ends in the markStale of smartSave, for every bundle
shape), and the two fast paths saveActivityOnly and saveDayMetadata,
which mark stale after their single store write regardless of what was
patched. -/
theorem c7_unconditional_stale (w : World) (c : SaveChanges)
    (tid aid did : String) (p : ActivityPatch) (q : DayPatch)
    (h1 : w.kv.failSets (.staleK c.tripId) = false)
    (h2 : w.kv.failSets (.staleK tid) = false) :
    (∀ w4, saveGranularChanges w c = .ok w4 →
      w4.kv.entries (.staleK c.tripId)
        = some ⟨.vBool true, w.kv.now + TTL_FULL_TRIP⟩) ∧
    (∀ w4, saveActivityOnly w tid aid p = .ok w4 →
      w4.kv.entries (.staleK tid)
        = some ⟨.vBool true, w.kv.now + TTL_FULL_TRIP⟩) ∧
    (∀ w4, saveDayMetadata w tid did q = .ok w4 →
      w4.kv.entries (.staleK tid)
        = some ⟨.vBool true, w.kv.now + TTL_FULL_TRIP⟩) := by
  refine ⟨?_, ?_, ?_⟩
  · intro w4 hok
    unfold saveGranularChanges at hok
    rcases hcu : w.currentUser with _ | uid
    · rw [hcu] at hok
      exact SaveOutcome.noConfusion hok
    · rw [hcu] at hok
      dsimp only at hok
      rcases hft : w.db.trips.find? (fun r => r.id == c.tripId)
        with _ | existingTrip
      · rw [hft] at hok
        exact SaveOutcome.noConfusion hok
      · rw [hft] at hok
        dsimp only at hok
        split at hok
        · exact SaveOutcome.noConfusion hok
        · rcases hmp : metadataPhase w c with wf | w1
          · rw [hmp] at hok
            exact SaveOutcome.noConfusion hok
          · rw [hmp] at hok
            dsimp only at hok
            have e1 : w1.kv = w.kv := by
              have := metadataPhase_kv w c
              rw [hmp] at this
              exact this
            rcases hdp : daysPhase w1 c with wf | ⟨w2, pendDays⟩
            · rw [hdp] at hok
              exact SaveOutcome.noConfusion hok
            · rw [hdp] at hok
              dsimp only at hok
              have e2fs : w2.kv.failSets = w1.kv.failSets := by
                have := daysPhase_kvproj KVState.failSets
                  (fun st t2 cty cid => invalidateComponent_failSets st t2 cty cid)
                  w1 c
                rw [hdp] at this
                exact this
              have e2now : w2.kv.now = w1.kv.now := by
                have := daysPhase_kvproj KVState.now
                  (fun st t2 cty cid => invalidateComponent_now st t2 cty cid)
                  w1 c
                rw [hdp] at this
                exact this
              rcases hap : activitiesPhase w2 c with wf | ⟨w3, pendActs⟩
              · rw [hap] at hok
                exact SaveOutcome.noConfusion hok
              · rw [hap] at hok
                dsimp only at hok
                have e3fs : w3.kv.failSets = w2.kv.failSets := by
                  have := activitiesPhase_kvproj KVState.failSets
                    (fun st t2 cty cid => invalidateComponent_failSets st t2 cty cid)
                    w2 c
                  rw [hap] at this
                  exact this
                have e3now : w3.kv.now = w2.kv.now := by
                  have := activitiesPhase_kvproj KVState.now
                    (fun st t2 cty cid => invalidateComponent_now st t2 cty cid)
                    w2 c
                  rw [hap] at this
                  exact this
                have hwfs : w3.kv.failSets (.staleK c.tripId) = false := by
                  rw [e3fs, e2fs, e1]
                  exact h1
                have hwnow : w3.kv.now = w.kv.now := by
                  rw [e3now, e2now, e1]
                have hss := smartSave_stale w3.kv c.tripId
                  { metadata := c.metadata.map
                      (fun mc => applyMetaChanges existingTrip mc),
                    days := pendDays, activities := pendActs,
                    structureIdx := none } hwfs
                by_cases hrb : rebuildCond c = true
                · rw [if_pos hrb] at hok
                  rw [hss.2] at hok
                  rcases hbs : buildTripStructure w3.db c.tripId w3.kv.now
                    with _ | s2
                  · rw [hbs] at hok
                    dsimp only at hok
                    injection hok with h4
                    subst h4
                    dsimp only
                    rw [hss.1, hwnow]
                  · rw [hbs] at hok
                    dsimp only at hok
                    injection hok with h4
                    subst h4
                    dsimp only
                    rw [setStructure_def,
                      tryWrite_entries_other _ _ _ _ _ (by simp),
                      hss.1, hwnow]
                · rw [if_neg hrb] at hok
                  injection hok with h4
                  subst h4
                  dsimp only
                  rw [hss.1, hwnow]
  · intro w4 hok
    unfold saveActivityOnly at hok
    rcases hcu : w.currentUser with _ | uid
    · rw [hcu] at hok
      exact SaveOutcome.noConfusion hok
    · rw [hcu] at hok
      dsimp only [dbCallFails] at hok
      split at hok
      · exact SaveOutcome.noConfusion hok
      · injection hok with h4
        subst h4
        dsimp only
        rw [markStale_def]
        rcases hga : getActivity w.kv aid with _ | v
        · dsimp only
          rw [tryWrite_entries_self _ _ _ _ h2]
        · dsimp only
          split
          · rcases hva : v.asAct with _ | a0
            · dsimp only
              rw [tryWrite_entries_self _ _ _ _ h2]
            · dsimp only
              rw [setActivity_def]
              rw [tryWrite_entries_self _ _ _ _
                (by rw [tryWrite_failSets]; exact h2), tryWrite_now]
          · rw [tryWrite_entries_self _ _ _ _ h2]
  · intro w4 hok
    unfold saveDayMetadata at hok
    rcases hcu : w.currentUser with _ | uid
    · rw [hcu] at hok
      exact SaveOutcome.noConfusion hok
    · rw [hcu] at hok
      dsimp only [dbCallFails] at hok
      split at hok
      · exact SaveOutcome.noConfusion hok
      · injection hok with h4
        subst h4
        dsimp only
        rw [markStale_def]
        rcases hga : getDay w.kv did with _ | v
        · dsimp only
          rw [tryWrite_entries_self _ _ _ _ h2]
        · dsimp only
          split
          · rcases hva : v.asDay with _ | d0
            · dsimp only
              rw [tryWrite_entries_self _ _ _ _ h2]
            · dsimp only
              rw [setDay_def]
              rw [tryWrite_entries_self _ _ _ _
                (by rw [tryWrite_failSets]; exact h2), tryWrite_now]
          · rw [tryWrite_entries_self _ _ _ _ h2]

/-- A world for the save-action witnesses: the sample database, a cold
working cache, and the owner of the sample trip logged in. -/
def wEx7 : World :=
  { db := dbEx,
    kv := { now := 0, entries := fun _ => none,
            failGets := fun _ => false, failSets := fun _ => false },
    currentUser := some "u1", failedDbCalls := [], dbCalls := 0 }

/-- A metadata change group setting a new title. -/
def mcEx7 : MetaChanges :=
  { title := some "New Title", subtitle := none, description := none,
    destination := none, durationDays := none, priceCents := none,
    status := none }

/-- A metadata-only change bundle for the sample trip. -/
def cEx7 : SaveChanges :=
  { tripId := "t1", metadata := some mcEx7, days := none,
    activities := none }

theorem saveOutcome_ok_world (o : SaveOutcome)
    (h : o.isFailed = false) : o = .ok o.world := by
  cases o
  · rfl
  · simp [SaveOutcome.isFailed] at h

/-- Witness for C7: a successful metadata-only bundle save leaves the
stale marker of the trip set to true. -/
theorem c7_unconditional_stale_witness :
    ((saveGranularChanges wEx7 cEx7).world).kv.entries (.staleK cEx7.tripId)
      = some ⟨.vBool true, wEx7.kv.now + TTL_FULL_TRIP⟩ :=
  (c7_unconditional_stale wEx7 cEx7 "t1" "a1" "d1"
    ⟨none, none, none, none, none, none⟩ ⟨none, none⟩ rfl rfl).1
    ((saveGranularChanges wEx7 cEx7).world)
    (saveOutcome_ok_world _ (by decide))

theorem saveOutcome_failed_world (o : SaveOutcome)
    (h : o.isFailed = true) : o = .failed o.world := by
  cases o
  · simp [SaveOutcome.isFailed] at h
  · rfl

theorem daysPhase_kv_noDel (w : World) (c : SaveChanges)
    (hdd : ∀ dg, c.days = some dg → dg.deleted.getD [] = []) :
    (exWorldP (daysPhase w c)).kv = w.kv := by
  unfold daysPhase
  rcases hc : c.days with _ | dg
  · rfl
  · dsimp only
    have e1 := insertDaysLoop_kv c.tripId (dg.added.getD []) w []
    rcases h1 : insertDaysLoop c.tripId w [] (dg.added.getD [])
      with wf | ⟨w1, pend1⟩
    · rw [h1] at e1
      dsimp only [exWorldP] at e1 ⊢
      exact e1
    · rw [h1] at e1
      dsimp only [exWorldP] at e1
      dsimp only
      have e2 := updateDaysLoop_kv (dg.updated.getD []) w1 pend1
      rcases h2 : updateDaysLoop w1 pend1 (dg.updated.getD [])
        with wf | ⟨w2, pend2⟩
      · rw [h2] at e2
        dsimp only [exWorldP] at e2 ⊢
        rw [e2, e1]
      · rw [h2] at e2
        dsimp only [exWorldP] at e2
        dsimp only
        rw [hdd dg hc]
        simp only [deleteDaysPhase, List.isEmpty_nil, if_true, exWorldP]
        rw [e2, e1]

theorem activitiesPhase_kv_noDel (w : World) (c : SaveChanges)
    (had : ∀ ag, c.activities = some ag → ag.deleted.getD [] = []) :
    (exWorldP (activitiesPhase w c)).kv = w.kv := by
  unfold activitiesPhase
  rcases hc : c.activities with _ | ag
  · rfl
  · dsimp only
    have e1 := insertActivitiesLoop_kv (ag.added.getD []) w []
    rcases h1 : insertActivitiesLoop w [] (ag.added.getD [])
      with wf | ⟨w1, pend1⟩
    · rw [h1] at e1
      dsimp only [exWorldP] at e1 ⊢
      exact e1
    · rw [h1] at e1
      dsimp only [exWorldP] at e1
      dsimp only
      have e2 := updateActivitiesLoop_kv (ag.updated.getD []) w1 pend1
      rcases h2 : updateActivitiesLoop w1 pend1 (ag.updated.getD [])
        with wf | ⟨w2, pend2⟩
      · rw [h2] at e2
        dsimp only [exWorldP] at e2 ⊢
        rw [e2, e1]
      · rw [h2] at e2
        dsimp only [exWorldP] at e2
        dsimp only
        rw [had ag hc]
        simp only [deleteActivitiesPhase, List.isEmpty_nil, if_true, exWorldP]
        rw [e2, e1]

/-- C5 as amended: for a change bundle with no deletions, a failed
authoritative-store write propagates the error and leaves the cache
completely untouched; the post-persistence cache propagation (smartSave
and the structure rebuild) runs only after every store write succeeded.
The restriction to deletion-free bundles is forced by the
counterexample: deletion invalidations run eagerly between store
writes. -/
theorem c5_write_atomicity_no_deletions (w : World) (c : SaveChanges)
    (hdd : ∀ dg, c.days = some dg → dg.deleted.getD [] = [])
    (had : ∀ ag, c.activities = some ag → ag.deleted.getD [] = [])
    (wf : World) (hfail : saveGranularChanges w c = .failed wf) :
    wf.kv = w.kv := by
  unfold saveGranularChanges at hfail
  rcases hcu : w.currentUser with _ | uid
  · rw [hcu] at hfail
    injection hfail with h4
    rw [← h4]
  · rw [hcu] at hfail
    dsimp only at hfail
    rcases hft : w.db.trips.find? (fun r => r.id == c.tripId)
      with _ | existingTrip
    · rw [hft] at hfail
      injection hfail with h4
      rw [← h4]
    · rw [hft] at hfail
      dsimp only at hfail
      split at hfail
      · injection hfail with h4
        rw [← h4]
      · rcases hmp : metadataPhase w c with wf1 | w1
        · rw [hmp] at hfail
          injection hfail with h4
          have e1 := metadataPhase_kv w c
          rw [hmp] at e1
          dsimp only [exWorld] at e1
          rw [← h4]
          exact e1
        · rw [hmp] at hfail
          dsimp only at hfail
          have e1 : w1.kv = w.kv := by
            have := metadataPhase_kv w c
            rw [hmp] at this
            exact this
          rcases hdp : daysPhase w1 c with wf1 | ⟨w2, pendDays⟩
          · rw [hdp] at hfail
            injection hfail with h4
            have e2 := daysPhase_kv_noDel w1 c hdd
            rw [hdp] at e2
            dsimp only [exWorldP] at e2
            rw [← h4, e2, e1]
          · rw [hdp] at hfail
            dsimp only at hfail
            have e2 : w2.kv = w1.kv := by
              have := daysPhase_kv_noDel w1 c hdd
              rw [hdp] at this
              exact this
            rcases hap : activitiesPhase w2 c with wf1 | ⟨w3, pendActs⟩
            · rw [hap] at hfail
              injection hfail with h4
              have e3 := activitiesPhase_kv_noDel w2 c had
              rw [hap] at e3
              dsimp only [exWorldP] at e3
              rw [← h4, e3, e2, e1]
            · rw [hap] at hfail
              dsimp only at hfail
              split at hfail
              · rcases hbs : buildTripStructure w3.db c.tripId
                  (smartSave w3.kv c.tripId
                    { metadata := c.metadata.map
                        (fun mc => applyMetaChanges existingTrip mc),
                      days := pendDays, activities := pendActs,
                      structureIdx := none }).now with _ | s2
                · rw [hbs] at hfail
                  exact SaveOutcome.noConfusion hfail
                · rw [hbs] at hfail
                  exact SaveOutcome.noConfusion hfail
              · exact SaveOutcome.noConfusion hfail

/-- A world like wEx7 whose second failable store statement throws. -/
def wEx5 : World := { wEx7 with failedDbCalls := [1] }

/-- The day group of the C5 counterexample bundle: delete day d1. -/
def dgEx5 : DayGroup :=
  { added := none, updated := none, deleted := some ["d1"] }

/-- The activity group of the C5 counterexample bundle: update a1. -/
def agEx5 : ActivityGroup :=
  { added := none, updated := some [{ actEx with description := "changed" }],
    deleted := none }

/-- A bundle deleting day d1 and then updating activity a1: the delete
statement succeeds, the update statement throws. -/
def cEx5 : SaveChanges :=
  { tripId := "t1", metadata := none, days := some dgEx5,
    activities := some agEx5 }

/-- Counterexample to C5 as stated: the bundle of cEx5 fails at the
authoritative store (the activity update throws after the day delete),
the error is propagated, and yet the cache has already been mutated:
the deleted day now holds the invalidation sentinel and the stale
marker has been written, although the cache started empty. -/
theorem c5_counterexample :
    (saveGranularChanges wEx5 cEx5).isFailed = true ∧
    ((saveGranularChanges wEx5 cEx5).world).kv.entries (.staleK "t1")
      = some ⟨.vBool true, 900⟩ ∧
    ((saveGranularChanges wEx5 cEx5).world).kv.entries (.dayK "d1")
      = some ⟨.vInvalid, 1⟩ ∧
    wEx5.kv.entries (.staleK "t1") = none ∧
    wEx5.kv.entries (.dayK "d1") = none := by
  decide

/-- A world like wEx7 whose first failable store statement throws. -/
def wEx5b : World := { wEx7 with failedDbCalls := [0] }

/-- Witness for the amended C5: a deletion-free bundle whose store
write throws leaves the cache exactly as it was. -/
theorem c5_write_atomicity_no_deletions_witness :
    ((saveGranularChanges wEx5b cEx7).world).kv = wEx5b.kv :=
  c5_write_atomicity_no_deletions wEx5b cEx7
    (fun dg h => Option.noConfusion h) (fun ag h => Option.noConfusion h)
    ((saveGranularChanges wEx5b cEx7).world)
    (saveOutcome_failed_world _ (by decide))

theorem smartSave_failSets (st : KVState) (tid : String) (c : SmartChanges) :
    (smartSave st tid c).failSets = st.failSets := by
  unfold smartSave
  rw [markStale_def, tryWrite_failSets, smartSavePre_failSets]

theorem smartSave_now (st : KVState) (tid : String) (c : SmartChanges) :
    (smartSave st tid c).now = st.now := by
  unfold smartSave
  rw [markStale_def, tryWrite_now, smartSavePre_now]

theorem smartSavePre_entries_structK (st : KVState) (tid tid2 : String)
    (c : SmartChanges) (hnone : c.structureIdx = none) :
    (smartSavePre st tid c).entries (.structureK tid2)
      = st.entries (.structureK tid2) := by
  unfold smartSavePre
  rw [hnone]
  dsimp only
  have h1 : (match c.metadata with
      | some m =>
        match getMetadata st tid with
        | some v => if v.truthy then setMetadata st tid m else st
        | none => st
      | none => st).entries (.structureK tid2)
      = st.entries (.structureK tid2) := by
    rcases c.metadata with _ | m
    · rfl
    · rcases getMetadata st tid with _ | v
      · rfl
      · dsimp only
        split
        · exact tryWrite_entries_other _ _ _ _ _ (by simp)
        · rfl
  have h2 := foldl_proj_preserved (fun st2 => st2.entries (.structureK tid2))
    (fun acc (p : String × TripDay) => setDay acc p.1 p.2 true)
    (fun st2 p => tryWrite_entries_other st2 _ _ _ _ (by simp)) c.days
  have h3 := foldl_proj_preserved (fun st2 => st2.entries (.structureK tid2))
    (fun acc (p : String × Activity) => setActivity acc p.1 p.2 true)
    (fun st2 p => tryWrite_entries_other st2 _ _ _ _ (by simp)) c.activities
  rw [h3, h2, h1]

theorem smartSave_entries_structK (st : KVState) (tid tid2 : String)
    (c : SmartChanges) (hnone : c.structureIdx = none) :
    (smartSave st tid c).entries (.structureK tid2)
      = st.entries (.structureK tid2) := by
  unfold smartSave
  rw [markStale_def, tryWrite_entries_other _ _ _ _ _ (by simp),
    smartSavePre_entries_structK st tid tid2 c hnone]

/-- C6 as amended: on a successful bundle save, the Structure Index is
rebuilt (from the post-write authoritative store) exactly when the day
group of the bundle is present and carries an added or deleted list
(arrays count even when empty, since arrays are truthy in JS); bundles
with only content updates, and also bundles whose only structural
changes are activity additions or deletions, never trigger a rebuild.
A rebuild that finds a trip with no days caches nothing. -/
theorem c6_structure_rebuild_condition (w : World) (c : SaveChanges)
    (w4 : World) (hok : saveGranularChanges w c = .ok w4)
    (hfs : w.kv.failSets (.structureK c.tripId) = false) :
    (rebuildCond c = true →
      w4.kv.entries (.structureK c.tripId) =
        (match buildTripStructure w4.db c.tripId w.kv.now with
         | some s => some ⟨.vStruct s, w.kv.now + TTL_STRUCTURE⟩
         | none => w.kv.entries (.structureK c.tripId))) ∧
    (rebuildCond c = false →
      w4.kv.entries (.structureK c.tripId)
        = w.kv.entries (.structureK c.tripId)) := by
  have hne1 : ∀ (cty : ComponentType) (cid : String),
      CacheKey.structureK c.tripId ≠ componentKey cty cid := by
    intro cty cid
    cases cty <;> simp [componentKey]
  unfold saveGranularChanges at hok
  rcases hcu : w.currentUser with _ | uid
  · rw [hcu] at hok
    exact SaveOutcome.noConfusion hok
  · rw [hcu] at hok
    dsimp only at hok
    rcases hft : w.db.trips.find? (fun r => r.id == c.tripId)
      with _ | existingTrip
    · rw [hft] at hok
      exact SaveOutcome.noConfusion hok
    · rw [hft] at hok
      dsimp only at hok
      split at hok
      · exact SaveOutcome.noConfusion hok
      · rcases hmp : metadataPhase w c with wf | w1
        · rw [hmp] at hok
          exact SaveOutcome.noConfusion hok
        · rw [hmp] at hok
          dsimp only at hok
          have e1 : w1.kv = w.kv := by
            have := metadataPhase_kv w c
            rw [hmp] at this
            exact this
          rcases hdp : daysPhase w1 c with wf | ⟨w2, pendDays⟩
          · rw [hdp] at hok
            exact SaveOutcome.noConfusion hok
          · rw [hdp] at hok
            dsimp only at hok
            have e2s : w2.kv.entries (.structureK c.tripId)
                = w1.kv.entries (.structureK c.tripId) := by
              have := daysPhase_kvproj
                (fun st2 => st2.entries (.structureK c.tripId))
                (fun st t2 cty cid => invalidateComponent_entries_other
                  st t2 cty cid _ (hne1 cty cid) (by simp)) w1 c
              rw [hdp] at this
              exact this
            have e2fs : w2.kv.failSets = w1.kv.failSets := by
              have := daysPhase_kvproj KVState.failSets
                (fun st t2 cty cid => invalidateComponent_failSets st t2 cty cid)
                w1 c
              rw [hdp] at this
              exact this
            have e2now : w2.kv.now = w1.kv.now := by
              have := daysPhase_kvproj KVState.now
                (fun st t2 cty cid => invalidateComponent_now st t2 cty cid)
                w1 c
              rw [hdp] at this
              exact this
            rcases hap : activitiesPhase w2 c with wf | ⟨w3, pendActs⟩
            · rw [hap] at hok
              exact SaveOutcome.noConfusion hok
            · rw [hap] at hok
              dsimp only at hok
              have e3s : w3.kv.entries (.structureK c.tripId)
                  = w2.kv.entries (.structureK c.tripId) := by
                have := activitiesPhase_kvproj
                  (fun st2 => st2.entries (.structureK c.tripId))
                  (fun st t2 cty cid => invalidateComponent_entries_other
                    st t2 cty cid _ (hne1 cty cid) (by simp)) w2 c
                rw [hap] at this
                exact this
              have e3fs : w3.kv.failSets = w2.kv.failSets := by
                have := activitiesPhase_kvproj KVState.failSets
                  (fun st t2 cty cid => invalidateComponent_failSets st t2 cty cid)
                  w2 c
                rw [hap] at this
                exact this
              have e3now : w3.kv.now = w2.kv.now := by
                have := activitiesPhase_kvproj KVState.now
                  (fun st t2 cty cid => invalidateComponent_now st t2 cty cid)
                  w2 c
                rw [hap] at this
                exact this
              have hsfr := smartSave_entries_structK w3.kv c.tripId c.tripId
                { metadata := c.metadata.map
                    (fun mc => applyMetaChanges existingTrip mc),
                  days := pendDays, activities := pendActs,
                  structureIdx := none } rfl
              have hnow2 := smartSave_now w3.kv c.tripId
                { metadata := c.metadata.map
                    (fun mc => applyMetaChanges existingTrip mc),
                  days := pendDays, activities := pendActs,
                  structureIdx := none }
              have hwnow : w3.kv.now = w.kv.now := by
                rw [e3now, e2now, e1]
              constructor
              · intro hrb
                rw [if_pos hrb] at hok
                rw [hnow2, hwnow] at hok
                rcases hbs : buildTripStructure w3.db c.tripId w.kv.now
                  with _ | s2
                · rw [hbs] at hok
                  dsimp only at hok
                  injection hok with h4
                  subst h4
                  dsimp only
                  rw [hbs]
                  rw [hsfr, e3s, e2s, e1]
                · rw [hbs] at hok
                  dsimp only at hok
                  injection hok with h4
                  subst h4
                  dsimp only
                  rw [hbs, setStructure_def, tryWrite_entries_self _ _ _ _
                    (by rw [smartSave_failSets, e3fs, e2fs, e1]; exact hfs),
                    hnow2, hwnow]
              · intro hrb
                rw [if_neg (by rw [hrb]; exact Bool.false_ne_true)] at hok
                injection hok with h4
                subst h4
                dsimp only
                rw [hsfr, e3s, e2s, e1]

/-- The activity group of the C6 counterexample bundle: one added
activity, no deletions. -/
def agEx6 : ActivityGroup :=
  { added := some [{ actEx with id := "temp-9", description := "new" }],
    updated := none, deleted := none }

/-- A bundle whose only structural change is an activity addition. -/
def cEx6 : SaveChanges :=
  { tripId := "t1", metadata := none, days := none,
    activities := some agEx6 }

/-- Counterexample to C6 as stated: the bundle of cEx6 adds an activity
(a structural change), the save succeeds, the post-write store still has
a day graph a rebuild would cache, and yet the structure key is left
untouched (still empty): the code rebuilds only for day-group changes,
never for activity additions or deletions. -/
theorem c6_counterexample :
    (saveGranularChanges wEx7 cEx6).isFailed = false ∧
    agEx6.added.isSome = true ∧
    ((saveGranularChanges wEx7 cEx6).world).kv.entries
      (.structureK "t1") = none ∧
    (buildTripStructure ((saveGranularChanges wEx7 cEx6).world).db
      "t1" 0).isSome = true := by
  decide

/-- A client-side new day for the C6 witness bundle. -/
def dayEx2 : TripDay :=
  { id := "temp-2", tripId := "t1", dayNumber := 2, title := "Day 2",
    subtitle := none, summary := none, activities := [] }

/-- The day group of the C6 witness bundle: one added day. -/
def dgEx6 : DayGroup :=
  { added := some [dayEx2], updated := none, deleted := none }

/-- A bundle adding one day. -/
def cEx6w : SaveChanges :=
  { tripId := "t1", metadata := none, days := some dgEx6,
    activities := none }

/-- Witness for the amended C6: a bundle with a day addition rebuilds
the structure from the post-write store. -/
theorem c6_structure_rebuild_condition_witness :
    ((saveGranularChanges wEx7 cEx6w).world).kv.entries
      (.structureK cEx6w.tripId) =
      (match buildTripStructure ((saveGranularChanges wEx7 cEx6w).world).db
          cEx6w.tripId wEx7.kv.now with
       | some s => some ⟨.vStruct s, wEx7.kv.now + TTL_STRUCTURE⟩
       | none => wEx7.kv.entries (.structureK cEx6w.tripId)) :=
  (c6_structure_rebuild_condition wEx7 cEx6w
    ((saveGranularChanges wEx7 cEx6w).world)
    (saveOutcome_ok_world _ (by decide)) rfl).1 (by decide)

theorem smartSave_failGets (st : KVState) (tid : String) (c : SmartChanges) :
    (smartSave st tid c).failGets = st.failGets := by
  unfold smartSave
  rw [markStale_def, tryWrite_failGets, smartSavePre_failGets]

theorem metaStep_entries_other (st : KVState) (tid : String)
    (c : SmartChanges) (k : CacheKey) (hk : k ≠ CacheKey.metaK tid) :
    (match c.metadata with
     | some m =>
       match getMetadata st tid with
       | some v => if v.truthy then setMetadata st tid m else st
       | none => st
     | none => st).entries k = st.entries k := by
  rcases c.metadata with _ | m
  · rfl
  · rcases getMetadata st tid with _ | v
    · rfl
    · dsimp only
      split
      · exact tryWrite_entries_other _ _ _ _ _ hk
      · rfl

theorem metaStep_failSets (st : KVState) (tid : String) (c : SmartChanges) :
    (match c.metadata with
     | some m =>
       match getMetadata st tid with
       | some v => if v.truthy then setMetadata st tid m else st
       | none => st
     | none => st).failSets = st.failSets := by
  rcases c.metadata with _ | m
  · rfl
  · rcases getMetadata st tid with _ | v
    · rfl
    · dsimp only
      split
      · exact tryWrite_failSets _ _ _ _
      · rfl

theorem metaStep_now (st : KVState) (tid : String) (c : SmartChanges) :
    (match c.metadata with
     | some m =>
       match getMetadata st tid with
       | some v => if v.truthy then setMetadata st tid m else st
       | none => st
     | none => st).now = st.now := by
  rcases c.metadata with _ | m
  · rfl
  · rcases getMetadata st tid with _ | v
    · rfl
    · dsimp only
      split
      · exact tryWrite_now _ _ _ _
      · rfl

theorem smartSavePre_entries_day (st : KVState) (tid : String)
    (c : SmartChanges) (id : String) (d : TripDay)
    (hmem : (id, d) ∈ c.days) (hnd : (c.days.map Prod.fst).Nodup)
    (hfs : st.failSets (.dayK id) = false) :
    (smartSavePre st tid c).entries (.dayK id)
      = some ⟨.vDay d, st.now + TTL_ACTIVE_EDIT⟩ := by
  have main : ∀ st0 : KVState, st0.failSets (.dayK id) = false →
      (c.activities.foldl (fun acc p => setActivity acc p.1 p.2 true)
        (c.days.foldl (fun acc p => setDay acc p.1 p.2 true) st0)).entries
        (.dayK id) = some ⟨.vDay d, st0.now + TTL_ACTIVE_EDIT⟩ := by
    intro st0 h0
    have hF := foldl_proj_preserved (fun st2 => st2.entries (.dayK id))
      (fun acc (p : String × Activity) => setActivity acc p.1 p.2 true)
      (fun st2 p => tryWrite_entries_other st2 _ _ _ _ (by simp))
      c.activities (c.days.foldl (fun acc p => setDay acc p.1 p.2 true) st0)
    rw [hF]
    exact foldl_kvset_mem CacheKey.dayK
      (fun a b h => by injection h) KVValue.vDay TTL_ACTIVE_EDIT
      c.days st0 id d hmem hnd h0
  unfold smartSavePre
  dsimp only
  have e0fs := metaStep_failSets st tid c
  have e0now := metaStep_now st tid c
  rcases c.structureIdx with _ | s
  · dsimp only
    rw [main _ (by rw [e0fs]; exact hfs), e0now]
  · dsimp only
    rw [setStructure_def, tryWrite_entries_other _ _ _ _ _ (by simp),
      main _ (by rw [e0fs]; exact hfs), e0now]

theorem smartSavePre_entries_activity (st : KVState) (tid : String)
    (c : SmartChanges) (id : String) (a : Activity)
    (hmem : (id, a) ∈ c.activities)
    (hnd : (c.activities.map Prod.fst).Nodup)
    (hfs : st.failSets (.activityK id) = false) :
    (smartSavePre st tid c).entries (.activityK id)
      = some ⟨.vAct a, st.now + TTL_ACTIVE_EDIT⟩ := by
  have main : ∀ st0 : KVState, st0.failSets (.activityK id) = false →
      (c.activities.foldl (fun acc p => setActivity acc p.1 p.2 true)
        st0).entries (.activityK id)
        = some ⟨.vAct a, st0.now + TTL_ACTIVE_EDIT⟩ := by
    intro st0 h0
    exact foldl_kvset_mem CacheKey.activityK
      (fun x y h => by injection h) KVValue.vAct TTL_ACTIVE_EDIT
      c.activities st0 id a hmem hnd h0
  unfold smartSavePre
  dsimp only
  have e0fs := metaStep_failSets st tid c
  have e0now := metaStep_now st tid c
  have e1fs := foldl_proj_preserved KVState.failSets
    (fun acc (p : String × TripDay) => setDay acc p.1 p.2 true)
    (fun st2 p => tryWrite_failSets st2 _ _ _) c.days
  have e1now := foldl_proj_preserved KVState.now
    (fun acc (p : String × TripDay) => setDay acc p.1 p.2 true)
    (fun st2 p => tryWrite_now st2 _ _ _) c.days
  rcases c.structureIdx with _ | s
  · dsimp only
    rw [main _ (by rw [e1fs, e0fs]; exact hfs), e1now, e0now]
  · dsimp only
    rw [setStructure_def, tryWrite_entries_other _ _ _ _ _ (by simp),
      main _ (by rw [e1fs, e0fs]; exact hfs), e1now, e0now]

theorem smartSavePre_entries_meta (st : KVState) (tid : String)
    (c : SmartChanges) (m : TripMetadata) (m0 : KVValue)
    (hm : c.metadata = some m)
    (hex : getMetadata st tid = some m0) (htr : m0.truthy = true)
    (hfs : st.failSets (.metaK tid) = false) :
    (smartSavePre st tid c).entries (.metaK tid)
      = some ⟨.vMeta m, st.now + TTL_METADATA⟩ := by
  unfold smartSavePre
  rw [hm]
  dsimp only
  rw [hex]
  dsimp only
  rw [if_pos htr]
  have h1 : (setMetadata st tid m).entries (.metaK tid)
      = some ⟨.vMeta m, st.now + TTL_METADATA⟩ := by
    rw [setMetadata_def, tryWrite_entries_self _ _ _ _ hfs]
  have h2 := foldl_proj_preserved (fun st2 => st2.entries (.metaK tid))
    (fun acc (p : String × TripDay) => setDay acc p.1 p.2 true)
    (fun st2 p => tryWrite_entries_other st2 _ _ _ _ (by simp)) c.days
  have h3 := foldl_proj_preserved (fun st2 => st2.entries (.metaK tid))
    (fun acc (p : String × Activity) => setActivity acc p.1 p.2 true)
    (fun st2 p => tryWrite_entries_other st2 _ _ _ _ (by simp)) c.activities
  rcases c.structureIdx with _ | s
  · dsimp only
    rw [h3, h2, h1]
  · dsimp only
    rw [setStructure_def, tryWrite_entries_other _ _ _ _ _ (by simp),
      h3, h2, h1]

/-- C8 as amended: after a successful save, day and activity entries of
the change set are refreshed unconditionally with their new values
(readable immediately under the active-edit TTL); the metadata entry,
and the single-fragment refresh of the saveActivityOnly fast path, are
applied only when the cache already holds a truthy entry for the key —
on a cold cache those entries are left absent and a subsequent read
misses, which is what the counterexample exhibits against the claim as
stated. -/
theorem c8_refresh_not_evict (st : KVState) (tid : String)
    (c : SmartChanges) (w : World) (tid2 aid : String) (p : ActivityPatch) :
    (∀ id d, (id, d) ∈ c.days → (c.days.map Prod.fst).Nodup →
      st.failSets (.dayK id) = false → st.failGets (.dayK id) = false →
      getDay (smartSave st tid c) id = some (.vDay d)) ∧
    (∀ id a, (id, a) ∈ c.activities →
      (c.activities.map Prod.fst).Nodup →
      st.failSets (.activityK id) = false →
      st.failGets (.activityK id) = false →
      getActivity (smartSave st tid c) id = some (.vAct a)) ∧
    (∀ m m0, c.metadata = some m → getMetadata st tid = some (.vMeta m0) →
      st.failSets (.metaK tid) = false → st.failGets (.metaK tid) = false →
      getMetadata (smartSave st tid c) tid = some (.vMeta m)) ∧
    (∀ a0 w4, getActivity w.kv aid = some (.vAct a0) →
      w.kv.failSets (.activityK aid) = false →
      w.kv.failGets (.activityK aid) = false →
      saveActivityOnly w tid2 aid p = .ok w4 →
      getActivity w4.kv aid = some (.vAct (applyActivityPatch a0 p))) := by
  refine ⟨?_, ?_, ?_, ?_⟩
  · intro id d hmem hnd hfs hfg
    have hentry : (smartSave st tid c).entries (.dayK id)
        = some ⟨.vDay d, st.now + TTL_ACTIVE_EDIT⟩ := by
      unfold smartSave
      rw [markStale_def, tryWrite_entries_other _ _ _ _ _ (by simp),
        smartSavePre_entries_day st tid c id d hmem hnd hfs]
    rw [getDay, tryRead_entry _ _ _ (by rw [smartSave_failGets]; exact hfg)
      hentry (by rw [smartSave_now]; exact Nat.lt_add_of_pos_right (by decide))]
  · intro id a hmem hnd hfs hfg
    have hentry : (smartSave st tid c).entries (.activityK id)
        = some ⟨.vAct a, st.now + TTL_ACTIVE_EDIT⟩ := by
      unfold smartSave
      rw [markStale_def, tryWrite_entries_other _ _ _ _ _ (by simp),
        smartSavePre_entries_activity st tid c id a hmem hnd hfs]
    rw [getActivity, tryRead_entry _ _ _
      (by rw [smartSave_failGets]; exact hfg) hentry
      (by rw [smartSave_now]; exact Nat.lt_add_of_pos_right (by decide))]
  · intro m m0 hm hex hfs hfg
    have hentry : (smartSave st tid c).entries (.metaK tid)
        = some ⟨.vMeta m, st.now + TTL_METADATA⟩ := by
      unfold smartSave
      rw [markStale_def, tryWrite_entries_other _ _ _ _ _ (by simp),
        smartSavePre_entries_meta st tid c m (.vMeta m0) hm hex rfl hfs]
    rw [getMetadata, tryRead_entry _ _ _
      (by rw [smartSave_failGets]; exact hfg) hentry
      (by rw [smartSave_now]; exact Nat.lt_add_of_pos_right (by decide))]
  · intro a0 w4 hex hfs hfg hok
    unfold saveActivityOnly at hok
    rcases hcu : w.currentUser with _ | uid
    · rw [hcu] at hok
      exact SaveOutcome.noConfusion hok
    · rw [hcu] at hok
      dsimp only [dbCallFails] at hok
      split at hok
      · exact SaveOutcome.noConfusion hok
      · injection hok with h4
        subst h4
        dsimp only
        rw [hex]
        dsimp only
        rw [if_pos (show (KVValue.vAct a0).truthy = true from rfl)]
        dsimp only [KVValue.asAct]
        have hentry : (markStale (setActivity w.kv aid
            (applyActivityPatch a0 p) true) tid2).entries (.activityK aid)
            = some ⟨.vAct (applyActivityPatch a0 p),
                w.kv.now + TTL_ACTIVE_EDIT⟩ := by
          rw [markStale_def, tryWrite_entries_other _ _ _ _ _ (by simp),
            setActivity_def, tryWrite_entries_self _ _ _ _ hfs]
          rfl
        rw [getActivity, tryRead_entry _ _ _ ?_ hentry ?_]
        · rw [markStale_def, tryWrite_failGets, setActivity_def,
            tryWrite_failGets]
          exact hfg
        · rw [markStale_def, tryWrite_now, setActivity_def, tryWrite_now]
          exact Nat.lt_add_of_pos_right (by decide)

/-- The activity patch of the C8 counterexample and witness: set the
description to X. -/
def pEx8 : ActivityPatch :=
  { timeBlock := none, description := some "X", orderIndex := none,
    locationName := none, locationLat := none, locationLng := none }

/-- Counterexample to C8 as stated: updating activity a1 through the
fast path with a cold component cache persists the new description to
the store, succeeds, and yet a subsequent component read of a1 returns
absent, not the newly written value: the refresh is skipped when no
entry is already cached. -/
theorem c8_counterexample :
    (saveActivityOnly wEx7 "t1" "a1" pEx8).isFailed = false ∧
    getActivity ((saveActivityOnly wEx7 "t1" "a1" pEx8).world).kv "a1"
      = none ∧
    ((saveActivityOnly wEx7 "t1" "a1" pEx8).world).db.activities.find?
      (fun r => r.id == "a1")
      = some { actRowEx with description := "X", updatedAt := 0 } := by
  decide

/-- A world whose component cache already holds activity a1. -/
def wEx8 : World :=
  { wEx7 with kv :=
      { now := 0,
        entries := fun k =>
          if k = CacheKey.activityK "a1"
          then some (KVEntry.mk (.vAct actEx) 100)
          else none,
        failGets := fun _ => false, failSets := fun _ => false } }

/-- Witness for the amended C8: with a warm cache the fast path
refreshes the entry with the merged value. -/
theorem c8_refresh_not_evict_witness :
    getActivity ((saveActivityOnly wEx8 "t1" "a1" pEx8).world).kv "a1"
      = some (.vAct (applyActivityPatch actEx pEx8)) :=
  (c8_refresh_not_evict wEx8.kv "t1"
    { metadata := none, days := [], activities := [], structureIdx := none }
    wEx8 "t1" "a1" pEx8).2.2.2 actEx
    ((saveActivityOnly wEx8 "t1" "a1" pEx8).world) rfl rfl rfl
    (saveOutcome_ok_world _ (by decide))
